import Mathlib

/-!
Verification of the LUKAS_Bibliothek photo-to-catalog reconciliation core.

Shallow embedding of the relevant source files:
  * `cleanup_gibberish.py`    (namespace `Cleanup`)
  * `quarantine_gibberish.py` (namespace `Quarantine`)
  * `enhance_candidates_with_matching.py` (namespace `Enhance`)
  * `ocr_refine_spines.py`    (namespace `OcrRefine`)
  * `scan_fotos_multi_book.py` (namespace `Scan`)

Texts are modelled as `List Char`; Python floats are modelled as exact
rationals (`ℚ`); fallible operations return `Option`.
-/

namespace Py

/-- Whitespace characters recognized by Python's `str.strip` and the `\s`
regex class, restricted to the ASCII repertoire occurring in this
repository's data. -/
def isSpace (c : Char) : Bool :=
  c == ' ' || c == '\t' || c == '\n' || c == '\x0b' || c == '\x0c' || c == '\r'

/-- Python `str.strip` on a character list. -/
def strip (l : List Char) : List Char :=
  ((l.dropWhile isSpace).reverse.dropWhile isSpace).reverse

/-- Digits `0`-`9`. -/
def pyIsDigit (c : Char) : Bool := '0' ≤ c && c ≤ '9'

/-- Python `str.isalpha` and the letter character class
`[A-Za-zÄÖÜäöüß]` used by this repository's regexes, modelled over the
character repertoire occurring in the source and its data (ASCII letters
plus the German letters). -/
def pyIsAlpha (c : Char) : Bool :=
  ('a' ≤ c && c ≤ 'z') || ('A' ≤ c && c ≤ 'Z') ||
  c == 'ä' || c == 'ö' || c == 'ü' || c == 'ß' || c == 'Ä' || c == 'Ö' || c == 'Ü'

/-- Python `str.lower`, over the same repertoire. -/
def pyLower (c : Char) : Char :=
  if 'A' ≤ c && c ≤ 'Z' then Char.ofNat (c.toNat + 32)
  else if c == 'Ä' then 'ä'
  else if c == 'Ö' then 'ö'
  else if c == 'Ü' then 'ü'
  else c

/-- SQLite's `LOWER`, which folds ASCII letters only. -/
def sqlLower (c : Char) : Char :=
  if 'A' ≤ c && c ≤ 'Z' then Char.ofNat (c.toNat + 32) else c

/-- Python `re.split(r"\s+", s)`: split at every maximal run of whitespace;
a leading (resp. trailing) run produces an empty first (resp. last) piece.
`cur` is the piece under construction, accumulated in reverse; `none`
marks that a run of whitespace is being skipped. -/
def splitWsAux : List Char → Option (List Char) → List (List Char)
  | [], none => [[]]
  | [], some cur => [cur.reverse]
  | c :: rest, none =>
    if isSpace c then splitWsAux rest none
    else splitWsAux rest (some [c])
  | c :: rest, some cur =>
    if isSpace c then cur.reverse :: splitWsAux rest none
    else splitWsAux rest (some (c :: cur))

def splitWs (l : List Char) : List (List Char) := splitWsAux l (some [])

end Py

namespace Q

/-!
Python float arithmetic is modelled by exact rationals.  The standard `ℚ`
operations of the library are `@[irreducible]`, which blocks kernel
evaluation of concrete witnesses, so the embedding computes with the
following `mkRat`-based equivalents; they are proved equal to the
standard operations in the theorem section (`Q.add_eq` etc.).
-/

def add (a b : ℚ) : ℚ := mkRat (a.num * b.den + b.num * a.den) (a.den * b.den)

def mul (a b : ℚ) : ℚ := mkRat (a.num * b.num) (a.den * b.den)

def div (a b : ℚ) : ℚ := mkRat (a.num * b.den * b.num.sign) (a.den * b.num.natAbs)

/-- Python `max(a, b)` (on a tie both sides are the same value, so the
choice of branch is immaterial). -/
def qmax (a b : ℚ) : ℚ := if a < b then b else a

/-- Python `min(a, b)`. -/
def qmin (a b : ℚ) : ℚ := if a < b then a else b

end Q

namespace Cleanup

/-- Vowel class `[AEIOUYÄÖÜaeiouyäöü]` of `cleanup_gibberish.py` (note that
`y`/`Y` count as vowels here, unlike in the OCR quality score). -/
def isVowel (c : Char) : Bool :=
  c == 'A' || c == 'E' || c == 'I' || c == 'O' || c == 'U' || c == 'Y' ||
  c == 'Ä' || c == 'Ö' || c == 'Ü' ||
  c == 'a' || c == 'e' || c == 'i' || c == 'o' || c == 'u' || c == 'y' ||
  c == 'ä' || c == 'ö' || c == 'ü'

/-- Characters NOT counted as "special" by the class
`[^A-Za-zÄÖÜäöüß0-9\s,.'\-()!?]`. -/
def isAllowed (c : Char) : Bool :=
  Py.pyIsAlpha c || Py.pyIsDigit c || Py.isSpace c ||
  c == ',' || c == '.' || c == '\'' || c == '-' ||
  c == '(' || c == ')' || c == '!' || c == '?'

/-- `gibberish_score` from `cleanup_gibberish.py` (lines 33-69).  `none`
models Python `None`. -/
def gibberish_score (text : Option (List Char)) : Nat :=
  match text with
  | none => 3
  | some t =>
    let s := Py.strip t
    if s = [] then 3
    else
      let vowels := s.countP isVowel
      let letters := s.countP Py.pyIsAlpha
      let specials := s.countP (fun c => !(isAllowed c))
      let total := s.length
      let toks := Py.splitWs s
      let score : Nat := 0
      let score := if 12 ≤ total ∧ vowels ≤ 1 then score + 1 else score
      let score := if 0 < total ∧ mkRat 20 100 < Q.div (specials : ℚ) (total : ℚ)
        then score + 1 else score
      let score := if toks.any (fun tk => 12 ≤ tk.length && !tk.any isVowel)
        then score + 1 else score
      let score := if 3 ≤ s.count '\\' then score + 1 else score
      let score := if 0 < total ∧ Q.div (letters : ℚ) (total : ℚ) < mkRat 35 100
        then score + 1 else score
      score

def looks_gibberish (text : Option (List Char)) : Bool :=
  2 ≤ gibberish_score text

end Cleanup

namespace Quarantine

/-- `gibberish_score` from `quarantine_gibberish.py` (lines 34-61): same
rules as the cleanup variant except a 0.22 special-character threshold and
an additional one-character-token rule. -/
def gibberish_score (text : Option (List Char)) : Nat :=
  match text with
  | none => 3
  | some t =>
    let s := Py.strip t
    if s = [] then 3
    else
      let vowels := s.countP Cleanup.isVowel
      let letters := s.countP Py.pyIsAlpha
      let specials := s.countP (fun c => !(Cleanup.isAllowed c))
      let total := s.length
      let toks := Py.splitWs s
      let score : Nat := 0
      let score := if 12 ≤ total ∧ vowels ≤ 1 then score + 1 else score
      let score := if 0 < total ∧ mkRat 22 100 < Q.div (specials : ℚ) (total : ℚ)
        then score + 1 else score
      let score := if toks.any (fun tk => 12 ≤ tk.length && !tk.any Cleanup.isVowel)
        then score + 1 else score
      let score := if 3 ≤ s.count '\\' then score + 1 else score
      let score := if 0 < total ∧ Q.div (letters : ℚ) (total : ℚ) < mkRat 35 100
        then score + 1 else score
      let score := if toks ≠ [] ∧
          mkRat 5 10 ≤ Q.div (toks.countP (fun tk => tk.length = 1) : ℚ) (toks.length : ℚ)
        then score + 1 else score
      score

def looks_gibberish (text : Option (List Char)) : Bool :=
  2 ≤ gibberish_score text

end Quarantine

namespace Db

/-- One row of the `copies` table, as read by the cleanup/quarantine SQL
(`status_digitalisierung` is nullable). -/
structure Copy where
  status_digitalisierung : Option (List Char)
  deriving DecidableEq

/-- One book record as produced by the `SELECT` in `cleanup`/`quarantine`:
text fields are already `COALESCE`d to the empty string, the publication
year stays nullable, and the copies of the book are carried along to
evaluate the two provenance `EXISTS` subqueries. -/
structure BookRow where
  id : Nat
  title : List Char
  author : List Char
  publisher : List Char
  isbn10 : List Char
  isbn13 : List Char
  publication_year : Option Int
  copies : List Copy
  deriving DecidableEq

/-- Drops everything up to and including the first occurrence of `pat`;
`none` when `pat` does not occur. -/
def dropAfterFirst (pat : List Char) : List Char → Option (List Char)
  | [] => if pat.isPrefixOf ([] : List Char) then some [] else none
  | c :: tl =>
    if pat.isPrefixOf (c :: tl) then some ((c :: tl).drop pat.length)
    else dropAfterFirst pat tl

/-- SQL `LIKE '%online%verifiz%'` (on an already lowercased string): an
occurrence of `online` is followed, disjointly, by an occurrence of
`verifiz`. -/
def likeOnlineVerifiz (s : List Char) : Bool :=
  match dropAfterFirst ("online".data) s with
  | none => false
  | some r => (dropAfterFirst ("verifiz".data) r).isSome

/-- The `has_gemini` flag: some copy has digitization status exactly
`Gemini-Import` (SQL `=`, so a NULL status never matches). -/
def has_gemini (b : BookRow) : Bool :=
  b.copies.any (fun cp => cp.status_digitalisierung = some ("Gemini-Import".data))

/-- The `has_online_verified` flag:
`LOWER(COALESCE(status_digitalisierung,'')) LIKE '%online%verifiz%'`. -/
def has_online_verified (b : BookRow) : Bool :=
  b.copies.any (fun cp =>
    likeOnlineVerifiz ((cp.status_digitalisierung.getD []).map Py.sqlLower))

/-- The `has_foto_erfasst` flag of `quarantine_gibberish.py`. -/
def has_foto_erfasst (b : BookRow) : Bool :=
  b.copies.any (fun cp => cp.status_digitalisierung = some ("Foto erfasst".data))

/-- `pub_year is not None and 1450 <= int(pub_year) <= (current_year + 1)`. -/
def has_plausible_year (current_year : Int) (b : BookRow) : Bool :=
  match b.publication_year with
  | none => false
  | some y => 1450 ≤ y ∧ y ≤ current_year + 1

end Db

namespace Cleanup

open Db

/-- The per-row deletion condition of the loop in `cleanup`
(`cleanup_gibberish.py` lines 111-126). -/
def selects (current_year : Int) (b : BookRow) : Bool :=
  if has_gemini b || has_online_verified b then false
  else
    let has_isbn := b.isbn10 ≠ [] || b.isbn13 ≠ []
    let has_publisher := b.publisher ≠ []
    let hpy := has_plausible_year current_year b
    let title_is_gib := looks_gibberish (some b.title)
    let author_is_gib := Py.strip b.author = [] || looks_gibberish (some b.author)
    !has_isbn && !has_publisher && !hpy && title_is_gib && author_is_gib

/-- Default of the `apply` parameter in `def cleanup(apply: bool = True, ...)`
(`cleanup_gibberish.py` line 76). -/
def cleanup_apply_default : Bool := true

/-- Effect of `cleanup` on the `books` table: when `apply` is set and there
are candidates, the batched `DELETE ... WHERE id IN (...)` removes exactly
the selected rows (copies cascade); otherwise the table is untouched. -/
def cleanup_run (apply : Bool) (current_year : Int) (db : List BookRow) :
    List BookRow :=
  let to_delete := (db.filter (selects current_year)).map (·.id)
  if apply ∧ to_delete ≠ [] then
    db.filter (fun b => !(to_delete.contains b.id))
  else db

end Cleanup

namespace Quarantine

open Db

/-- The per-row quarantine condition (`quarantine_gibberish.py` lines
148-165), a disjunction of four rules gated by the three option flags. -/
def selects (include_foto_erfasst_all aggressive_titles ignore_isbn_safety : Bool)
    (current_year : Int) (b : BookRow) : Bool :=
  if has_gemini b || has_online_verified b then false
  else
    let has_isbn := b.isbn10 ≠ [] || b.isbn13 ≠ []
    let has_publisher := b.publisher ≠ []
    let hpy := has_plausible_year current_year b
    let title_is_gib := looks_gibberish (some b.title)
    let author_is_gib := Py.strip b.author = [] || looks_gibberish (some b.author)
    let rule_foto_all := include_foto_erfasst_all && has_foto_erfasst b
    let rule_aggr_titles := aggressive_titles && (title_is_gib || author_is_gib) &&
      (ignore_isbn_safety || !has_isbn)
    let rule_conservative := !has_isbn && !has_publisher && !hpy &&
      title_is_gib && author_is_gib
    let rule_foto_ocr := !include_foto_erfasst_all && has_foto_erfasst b &&
      (title_is_gib || author_is_gib) && !has_isbn
    rule_foto_all || rule_aggr_titles || rule_conservative || rule_foto_ocr

/-- Defaults of `def quarantine(apply=False, include_foto_erfasst_all=False,
aggressive_titles=False, ignore_isbn_safety=False)` (lines 91-94). -/
def quarantine_apply_default : Bool := false

def quarantine_include_foto_default : Bool := false

def quarantine_aggressive_default : Bool := false

def quarantine_ignore_isbn_default : Bool := false

/-- Effect of `quarantine` on the `books` table (the audit CSV and image
copies are written in every case, before this step). -/
def quarantine_run (apply include_foto_erfasst_all aggressive_titles
    ignore_isbn_safety : Bool) (current_year : Int) (db : List BookRow) :
    List BookRow :=
  let candidates := (db.filter
    (selects include_foto_erfasst_all aggressive_titles ignore_isbn_safety
      current_year)).map (·.id)
  if apply ∧ candidates ≠ [] then
    db.filter (fun b => !(candidates.contains b.id))
  else db

end Quarantine

namespace Enhance

/-- `norm` from `enhance_candidates_with_matching.py`: `(s or '').strip()`. -/
def norm (s : List Char) : List Char := Py.strip s

/-- Characters kept by `clean`'s first substitution
(`re.sub(r"[^a-z0-9äöüß\s]", " ", s)` after lowering). -/
def keepChar (c : Char) : Bool :=
  ('a' ≤ c && c ≤ 'z') || Py.pyIsDigit c ||
  c == 'ä' || c == 'ö' || c == 'ü' || c == 'ß' || Py.isSpace c

/-- `re.sub(r"\s+", " ", s)`: every maximal whitespace run becomes one
space.  `prevWs` records whether the previous character was whitespace. -/
def collapseWsAux : List Char → Bool → List Char
  | [], _ => []
  | c :: rest, prevWs =>
    if Py.isSpace c then
      if prevWs then collapseWsAux rest true
      else ' ' :: collapseWsAux rest true
    else c :: collapseWsAux rest false

def collapseWs (l : List Char) : List Char := collapseWsAux l false

/-- `clean` (lines 56-61): lower-case, replace everything outside
`[a-z0-9äöüß\s]` by a space, collapse whitespace, strip. -/
def clean (s : List Char) : List Char :=
  let s := s.map Py.pyLower
  let s := s.map (fun c => if keepChar c then c else ' ')
  Py.strip (collapseWs s)

/-- Python `str.split(' ')` (single-space separator, no run merging). -/
def splitOnSpaceAux : List Char → List Char → List (List Char)
  | [], cur => [cur.reverse]
  | c :: rest, cur =>
    if c == ' ' then cur.reverse :: splitOnSpaceAux rest []
    else splitOnSpaceAux rest (c :: cur)

/-- `tokens` (lines 63-64): `[t for t in clean(s).split(' ') if t]`. -/
def tokens (s : List Char) : List (List Char) :=
  (splitOnSpaceAux (clean s) []).filter (· ≠ [])

/-- First-occurrence deduplication; models Python `set(...)` for the
purposes of cardinality and membership. -/
def dedupF : List (List Char) → List (List Char) → List (List Char)
  | [], _ => []
  | x :: xs, seen =>
    if seen.contains x then dedupF xs seen
    else x :: dedupF xs (x :: seen)

/-- `jaccard` (lines 139-143): `|sa ∩ sb| / |sa ∪ sb|` over the two token
sets, `0.0` when either is empty. -/
def jaccard (a b : List (List Char)) : ℚ :=
  let sa := dedupF a []
  let sb := dedupF b []
  if sa = [] ∨ sb = [] then 0
  else Q.div ((sa.countP (fun t => sb.contains t) : ℚ))
    ((sa.length + (sb.filter (fun t => !(sa.contains t))).length : Nat) : ℚ)

/-- `has_any_token` (lines 156-160). -/
def has_any_token (text : List Char) (token_set : List (List Char)) : Bool :=
  (tokens text).any (fun t => token_set.contains t)

/-! ### ISBN recognition -/

/-- `re.sub(r"[^0-9xX]", "", s)`. -/
def filterIsbnChars (s : List Char) : List Char :=
  s.filter (fun c => Py.pyIsDigit c || c == 'X' || c == 'x')

def digitVal (c : Char) : Nat := c.toNat - '0'.toNat

/-- Value of the ISBN-10 check character: 10 for `x`/`X`, otherwise the
digit value. -/
def checkVal (c : Char) : Nat := if c == 'x' || c == 'X' then 10 else digitVal c

/-- `is_isbn10` (lines 68-84): after stripping to `[0-9xX]`, exactly 10
characters, the first nine digits, and
`Σ i·dᵢ (i=1..9) + 10·check ≡ 0 (mod 11)` with check value 10 for `x`/`X`. -/
def is_isbn10 (s0 : List Char) : Bool :=
  let s := filterIsbnChars s0
  if s.length ≠ 10 then false
  else
    let first9 := s.take 9
    if !(first9.all Py.pyIsDigit) then false
    else
      let total := (first9.enum.map (fun p => (p.1 + 1) * digitVal p.2)).sum
      match s.get? 9 with
      | some c =>
        if c == 'x' || c == 'X' then (total + 10 * 10) % 11 == 0
        else if Py.pyIsDigit c then (total + 10 * digitVal c) % 11 == 0
        else false
      | none => false

/-- `is_isbn13` (lines 86-95). -/
def is_isbn13 (s0 : List Char) : Bool :=
  let s := s0.filter Py.pyIsDigit
  if s.length ≠ 13 then false
  else
    let sm := ((s.take 12).enum.map
      (fun p => digitVal p.2 * (if p.1 % 2 == 0 then 1 else 3))).sum
    let chk := (10 - (sm % 10)) % 10
    match s.get? 12 with
    | some c => chk == digitVal c
    | none => false

/-- Separator class `[- ]` of the ISBN-13 alternative. -/
def isSep (c : Char) : Bool := c == '-' || c == ' '

/-- Word characters for the regex `\b` boundary (`\w`), over this
repository's repertoire. -/
def isWordChar (c : Char) : Bool :=
  Py.pyIsAlpha c || Py.pyIsDigit c || c == '_'

/-- Greedy `[- ]?`: consume one separator if present.  The following atom
is always `\d`, which can never match `-` or a space, so the greedy choice
never needs backtracking. -/
def eatSep : List Char → (List Char × List Char)
  | [] => ([], [])
  | c :: rest => if isSep c then ([c], rest) else ([], c :: rest)

/-- `(?:\d[- ]?){n}`: `n` repetitions of a digit with an optional
separator; returns the consumed characters and the remainder. -/
def matchDigitSepGroups : Nat → List Char → Option (List Char × List Char)
  | 0, l => some ([], l)
  | _ + 1, [] => none
  | n + 1, c :: l =>
    if Py.pyIsDigit c then
      let p := eatSep l
      match matchDigitSepGroups n p.2 with
      | some (cs, r) => some (c :: (p.1 ++ cs), r)
      | none => none
    else none

/-- First alternative of the `find_isbn` pattern:
`97[89][- ]?(?:\d[- ]?){9}\d`. -/
def tryMatch13 : List Char → Option (List Char × List Char)
  | '9' :: '7' :: c :: rest =>
    if c == '8' || c == '9' then
      let p := eatSep rest
      match matchDigitSepGroups 9 p.2 with
      | some (cs, r) =>
        match r with
        | d :: r' =>
          if Py.pyIsDigit d then some ('9' :: '7' :: c :: (p.1 ++ cs ++ [d]), r')
          else none
        | [] => none
      | none => none
    else none
  | _ => none

/-- `\d{n}`. -/
def takeDigits : Nat → List Char → Option (List Char × List Char)
  | 0, l => some ([], l)
  | _ + 1, [] => none
  | n + 1, c :: l =>
    if Py.pyIsDigit c then
      match takeDigits n l with
      | some (cs, r) => some (c :: cs, r)
      | none => none
    else none

/-- Second alternative of the `find_isbn` pattern: `\b\d{9}[\dXx]\b`.
`prevWord` says whether the character before the current position is a
word character; since the first matched character is a digit, the leading
`\b` holds exactly when `prevWord` is false, and the trailing `\b` holds
exactly when the input ends or continues with a non-word character. -/
def tryMatch10 (prevWord : Bool) (l : List Char) : Option (List Char × List Char) :=
  if prevWord then none
  else
    match takeDigits 9 l with
    | none => none
    | some (ds, r) =>
      match r with
      | [] => none
      | c :: r' =>
        if Py.pyIsDigit c || c == 'X' || c == 'x' then
          match r' with
          | [] => some (ds ++ [c], [])
          | d :: _ => if isWordChar d then none else some (ds ++ [c], r')
        else none

def lastCharWord (m : List Char) : Bool :=
  match m.getLast? with
  | some c => isWordChar c
  | none => false

/-- `re.findall` for the `find_isbn` pattern: scan left to right, at each
position try the 13-digit alternative first, then the 10-character one;
on a match, continue after it.  The fuel argument is the length of the
remaining input; every step consumes at least one character, so the fuel
never runs out before the input does (`findAllIsbnAux_fuel` below). -/
def findAllIsbnAux : Nat → Bool → List Char → List (List Char)
  | 0, _, _ => []
  | fuel + 1, prevWord, l =>
    match l with
    | [] => []
    | c :: rest =>
      match tryMatch13 l with
      | some (m, r) => m :: findAllIsbnAux fuel (lastCharWord m) r
      | none =>
        match tryMatch10 prevWord l with
        | some (m, r) => m :: findAllIsbnAux fuel (lastCharWord m) r
        | none => findAllIsbnAux fuel (isWordChar c) rest

/-- First regex hit (in scan order) that passes either checksum, stripped
to `[0-9Xx]`. -/
def firstValidIsbn : List (List Char) → Option (List Char)
  | [] => none
  | raw :: rest =>
    let flat := filterIsbnChars raw
    if is_isbn13 flat || is_isbn10 flat then some flat
    else firstValidIsbn rest

/-- `find_isbn` (lines 97-106). -/
def find_isbn (text : List Char) : Option (List Char) :=
  if text = [] then none
  else firstValidIsbn (findAllIsbnAux text.length false text)

end Enhance

namespace Difflib

/-!
Embedding of `difflib.SequenceMatcher(None, a, b).ratio()` as used by
`score_title`.  `isjunk` is `None` throughout this repository, so the
junk set is always empty: the two junk-extension loops of
`find_longest_match` are no-ops and are omitted; the autojunk "popular
element" heuristic (active only for `len(b) ≥ 200`) is part of `b2j`.
-/

/-- `a[i] == b[j]`, false out of range (never reached in range-correct
calls). -/
def charEqAt (a b : List Char) (i j : Nat) : Bool :=
  match a.get? i, b.get? j with
  | some x, some y => x == y
  | _, _ => false

/-- Occurrence positions of `c` in `b`, in increasing order (`__chain_b`
builds `b2j` by appending indices left to right). -/
def indicesOf (c : Char) (b : List Char) : List Nat :=
  (List.range b.length).filter (fun j => b.get? j == some c)

/-- `b2j` including autojunk: for `len(b) ≥ 200`, characters occurring at
more than `len(b) // 100 + 1` positions are dropped from the index. -/
def b2j (b : List Char) (c : Char) : List Nat :=
  let idxs := indicesOf c b
  if 200 ≤ b.length ∧ b.length / 100 + 1 < idxs.length then [] else idxs

/-- Inner loop of the dynamic-programming phase of `find_longest_match`:
walk the occurrence list of `a[i]`, skipping `j < blo` (`continue`) and
stopping at the first `j ≥ bhi` (`break`; the list is increasing);
`newj2len j = j2lenOld (j-1) + 1` is the length of the longest match
ending at `(i, j)`, and `best` is updated on strict improvement. -/
def dpInner (j2lenOld : Nat → Nat) (i blo bhi : Nat) :
    List Nat → (Nat → Nat) → Nat × Nat × Nat → (Nat → Nat) × (Nat × Nat × Nat)
  | [], newj2len, best => (newj2len, best)
  | j :: js, newj2len, best =>
    if j < blo then dpInner j2lenOld i blo bhi js newj2len best
    else if bhi ≤ j then (newj2len, best)
    else
      let k := (if j = 0 then 0 else j2lenOld (j - 1)) + 1
      let newj2len' := fun j' => if j' = j then k else newj2len j'
      let best' := if best.2.2 < k then (i + 1 - k, j + 1 - k, k) else best
      dpInner j2lenOld i blo bhi js newj2len' best'

/-- Outer loop over the rows `i ∈ [alo, ahi)`; each row starts from a
fresh `newj2len` and reads the previous row's `j2len`. -/
def dpOuter (a b : List Char) (blo bhi : Nat) :
    List Nat → (Nat → Nat) → Nat × Nat × Nat → Nat × Nat × Nat
  | [], _, best => best
  | i :: is, j2len, best =>
    let js := b2j b (a.getD i (Char.ofNat 0))
    let p := dpInner j2len i blo bhi js (fun _ => 0) best
    dpOuter a b blo bhi is p.1 p.2

/-- Backward extension:
`while besti > alo and bestj > blo and a[besti-1] == b[bestj-1]`.
Structural recursion on `besti`, which the loop decrements. -/
def extendBack (a b : List Char) (alo blo : Nat) :
    Nat → Nat → Nat → Nat × Nat × Nat
  | 0, bestj, bestsize => (0, bestj, bestsize)
  | besti + 1, bestj, bestsize =>
    if (alo < besti + 1 ∧ blo < bestj) ∧ charEqAt a b besti (bestj - 1) = true then
      extendBack a b alo blo besti (bestj - 1) (bestsize + 1)
    else (besti + 1, bestj, bestsize)

/-- Forward extension:
`while besti+bestsize < ahi and bestj+bestsize < bhi and a[..] == b[..]`.
The fuel starts at `ahi`: each iteration increments `bestsize` while the
guard requires `besti + bestsize < ahi`, so at most `ahi` iterations can
ever pass the guard and the fuel never cuts the loop short. -/
def extendFwd (a b : List Char) (ahi bhi besti bestj : Nat) :
    Nat → Nat → Nat
  | 0, bestsize => bestsize
  | fuel + 1, bestsize =>
    if (besti + bestsize < ahi ∧ bestj + bestsize < bhi) ∧
        charEqAt a b (besti + bestsize) (bestj + bestsize) = true then
      extendFwd a b ahi bhi besti bestj fuel (bestsize + 1)
    else bestsize

/-- `find_longest_match` on `a[alo:ahi] × b[blo:bhi]` (with empty junk
set). -/
def find_longest_match (a b : List Char) (alo ahi blo bhi : Nat) :
    Nat × Nat × Nat :=
  let dp := dpOuter a b blo bhi (List.range' alo (ahi - alo)) (fun _ => 0)
    (alo, blo, 0)
  let ext := extendBack a b alo blo dp.1 dp.2.1 dp.2.2
  let size := extendFwd a b ahi bhi ext.1 ext.2.1 ahi ext.2.2
  (ext.1, ext.2.1, size)

/-- Total size of the matching blocks (`get_matching_blocks`): the
queue-based traversal of the original sums the longest match of each
unexplored subrectangle, recursing left and right of every nonempty
match; the sort/merge steps do not change the sum.  The fuel starts at
the rectangle measure `(ahi-alo) + (bhi-blo)`, which every recursive call
strictly decreases (`find_longest_match` returns a match inside the
rectangle), so the fuel never cuts the recursion short. -/
def matchesSumFuel (a b : List Char) : Nat → Nat → Nat → Nat → Nat → Nat
  | 0, _, _, _, _ => 0
  | fuel + 1, alo, ahi, blo, bhi =>
    let t := find_longest_match a b alo ahi blo bhi
    if t.2.2 = 0 then 0
    else
      t.2.2 +
        ((if alo < t.1 ∧ blo < t.2.1 then
            matchesSumFuel a b fuel alo t.1 blo t.2.1
          else 0) +
         (if t.1 + t.2.2 < ahi ∧ t.2.1 + t.2.2 < bhi then
            matchesSumFuel a b fuel (t.1 + t.2.2) ahi (t.2.1 + t.2.2) bhi
          else 0))

def matchesSum (a b : List Char) (alo ahi blo bhi : Nat) : Nat :=
  matchesSumFuel a b ((ahi - alo) + (bhi - blo)) alo ahi blo bhi

/-- `SequenceMatcher.ratio()`: `2*M / (len(a)+len(b))`, or `1.0` for two
empty sequences (`_calculate_ratio`). -/
def ratio (a b : List Char) : ℚ :=
  if a.length + b.length = 0 then 1
  else Q.div ((2 * matchesSum a b 0 a.length 0 b.length : Nat) : ℚ)
    ((a.length + b.length : Nat) : ℚ)

end Difflib

namespace Enhance

/-- `score_title` (lines 146-153):
`0.6 * SequenceMatcher(None, a, b).ratio() + 0.4 * jaccard(tokens(a), tokens(b))`
on the cleaned strings, `0.0` when either cleans to empty. -/
def score_title (o_txt title : List Char) : ℚ :=
  let a := clean o_txt
  let b := clean title
  if a = [] ∨ b = [] then 0
  else Q.add (Q.mul (mkRat 6 10) (Difflib.ratio a b))
    (Q.mul (mkRat 4 10) (jaccard (tokens a) (tokens b)))

end Enhance

namespace Enhance

/-- One catalog row as read from `lukas_bibliothek_v1.csv`; absent fields
are the empty string (`row.get(..., '')`). -/
structure CatRow where
  id : List Char
  title : List Char
  author : List Char
  publisher : List Char
  isbn : List Char
  deriving DecidableEq

/-- Lookup in the `by_isbn` dict of `build_catalog_indexes` (lines
116-119): rows with a truthy stripped ISBN are keyed by the ISBN stripped
to `[0-9Xx]`; later rows overwrite earlier ones, so the lookup takes the
last matching row. -/
def by_isbn_find (cat : List CatRow) (key : List Char) : Option CatRow :=
  (((cat.filter (fun r => norm r.isbn ≠ [])).map
      (fun r => (filterIsbnChars (norm r.isbn), r))).reverse.find?
    (fun p => p.1 == key)).map (fun p => p.2)

/-- Lookup in the `by_id` dict of `main` (line 181): every row keyed by
its id (possibly empty); later rows overwrite earlier ones. -/
def by_id_find (cat : List CatRow) (key : List Char) : Option CatRow :=
  ((cat.map (fun r => (r.id, r))).reverse.find? (fun p => p.1 == key)).map
    (fun p => p.2)

/-- The `author_tokens` set (lines 120-131): tokens of every truthy
(stripped) author name; a list used only through membership. -/
def author_tokens (cat : List CatRow) : List (List Char) :=
  (cat.filterMap (fun r =>
    if norm r.author ≠ [] then some (norm r.author) else none)).flatMap tokens

/-- The `publisher_tokens` set (lines 125-134). -/
def publisher_tokens (cat : List CatRow) : List (List Char) :=
  (cat.filterMap (fun r =>
    if norm r.publisher ≠ [] then some (norm r.publisher) else none)).flatMap tokens

/-- Per-entry score of the similarity scan (lines 256-261):
`score_title` plus `+0.05` when the text shares a token with the entry's
(truthy) author while some catalog author token occurs in the text at
all, and `+0.03` likewise for the publisher. -/
def entryScore (a_toks p_toks : List (List Char)) (text : List Char)
    (bk : CatRow) : ℚ :=
  let has_author := has_any_token text a_toks
  let has_pub := has_any_token text p_toks
  let s := score_title text bk.title
  let s := if has_author = true ∧ bk.author ≠ [] ∧
      has_any_token text (tokens bk.author) = true
    then Q.add s (mkRat 5 100) else s
  let s := if has_pub = true ∧ bk.publisher ≠ [] ∧
      has_any_token text (tokens bk.publisher) = true
    then Q.add s (mkRat 3 100) else s
  s

/-- The `best`/`best_score` fold of lines 254-264: strict improvement,
starting from `(None, 0.0)`. -/
def bestFold (cat : List CatRow) (a_toks p_toks : List (List Char))
    (text : List Char) : Option CatRow × ℚ :=
  cat.foldl (fun acc bk =>
    let s := entryScore a_toks p_toks text bk
    if acc.2 < s then (some bk, s) else acc) (none, 0)

/-- The per-segment output record written by `main` (the match-relevant
columns of `fotos_candidates_matched.csv`). -/
structure MatchOut where
  matched_book_id : List Char
  matched_title : List Char
  matched_author : List Char
  matched_publisher : List Char
  match_score : ℚ
  status : List Char
  reason : List Char
  deriving DecidableEq

/-- Rule 4 of the decision procedure (lines 251-272): the similarity scan
over the whole catalog, applied to the state `init` left by the baseline
rules.  Acceptance requires `best is not None` and
`(has_author and best_score >= 0.75) or best_score >= 0.88`. -/
def rule4 (cat : List CatRow) (a_toks p_toks : List (List Char))
    (text : List Char) (init : MatchOut) : MatchOut :=
  let has_author := has_any_token text a_toks
  let best := bestFold cat a_toks p_toks text
  match best with
  | (some bk, best_score) =>
    if (has_author = true ∧ mkRat 75 100 ≤ best_score) ∨ mkRat 88 100 ≤ best_score
    then
      { matched_book_id := bk.id, matched_title := bk.title,
        matched_author := bk.author, matched_publisher := bk.publisher,
        match_score := Q.qmax init.match_score best_score,
        status := "existing".data,
        reason := if has_author = true ∧ mkRat 75 100 ≤ best_score
          then "author+title".data else "title-only>=0.88".data }
    else init
  | (none, _) => init

/-- The guard of the ISBN rule (lines 221-222): `find_isbn(text)` must
return a truthy string that is a key of `by_isbn`. -/
def isbnHit (cat : List CatRow) (text : List Char) : Option CatRow :=
  match find_isbn text with
  | some isbn => if isbn ≠ [] then by_isbn_find cat isbn else none
  | none => none

/-- The guard of the baseline rules (lines 233, 243): a truthy `base_id`
that resolves in `by_id`. -/
def baseHit (cat : List CatRow) (base_id : List Char) : Option CatRow :=
  if base_id ≠ [] then by_id_find cat base_id else none

/-- The per-row decision procedure of `main` (lines 212-272): ISBN rule,
then high-confidence baseline carry-over, then baseline suggestion, then
the similarity scan.  `text` is the concatenated hint+OCR text; `base_id`
and `base_score` come from the baseline candidate row. -/
def matchRow (cat : List CatRow) (text base_id : List Char)
    (base_score : ℚ) : MatchOut :=
  let a_toks := author_tokens cat
  let p_toks := publisher_tokens cat
  match isbnHit cat text with
  | some bk =>
    { matched_book_id := bk.id, matched_title := bk.title,
      matched_author := bk.author, matched_publisher := bk.publisher,
      match_score := 1, status := "existing".data, reason := "isbn".data }
  | none =>
    match baseHit cat base_id with
    | some bk =>
      if mkRat 84 100 ≤ base_score then
        { matched_book_id := base_id, matched_title := bk.title,
          matched_author := bk.author, matched_publisher := bk.publisher,
          match_score := base_score, status := "existing".data,
          reason := "baseline>=0.84".data }
      else
        rule4 cat a_toks p_toks text
          { matched_book_id := base_id, matched_title := bk.title,
            matched_author := bk.author, matched_publisher := bk.publisher,
            match_score := base_score, status := "new".data,
            reason := "baseline-suggestion".data }
    | none =>
      rule4 cat a_toks p_toks text
        { matched_book_id := [], matched_title := [], matched_author := [],
          matched_publisher := [], match_score := base_score,
          status := "new".data, reason := [] }

end Enhance

namespace OcrRefine

/-- `\t+` → one space (`clean`, line 49). -/
def collapseTabsAux : List Char → Bool → List Char
  | [], _ => []
  | c :: rest, prevTab =>
    if c == '\t' then
      if prevTab then collapseTabsAux rest true
      else ' ' :: collapseTabsAux rest true
    else c :: collapseTabsAux rest false

/-- `\n{2,}` → one newline (`clean`, line 50); a run of newlines collapses
to a single one (a lone newline is already a single one). -/
def collapseNlAux : List Char → Bool → List Char
  | [], _ => []
  | c :: rest, prevNl =>
    if c == '\n' then
      if prevNl then collapseNlAux rest true
      else '\n' :: collapseNlAux rest true
    else c :: collapseNlAux rest false

/-- `clean` from `ocr_refine_spines.py` (lines 47-51): CR→LF, tab runs to
one space, newline runs to one newline, then strip. -/
def clean (s : List Char) : List Char :=
  let s := s.map (fun c => if c == '\r' then '\n' else c)
  let s := collapseTabsAux s false
  let s := collapseNlAux s false
  Py.strip s

/-- Characters kept by `tokens`' substitution (line 55). -/
def keepChar (c : Char) : Bool :=
  ('a' ≤ c && c ≤ 'z') || Py.pyIsDigit c ||
  c == 'ä' || c == 'ö' || c == 'ü' || c == 'ß' || Py.isSpace c

/-- `tokens` (lines 53-56): lower-case, strip everything but
`[a-z0-9äöüß\s]`, then `str.split()` (whitespace split dropping empty
pieces). -/
def tokens (s : List Char) : List (List Char) :=
  let s := s.map Py.pyLower
  let s := s.map (fun c => if keepChar c then c else ' ')
  (Py.splitWs s).filter (· ≠ [])

/-- `VOWELS = set('aeiouäöü')` (line 58; no `y`, unlike the gibberish
classifiers). -/
def isVowel (c : Char) : Bool :=
  c == 'a' || c == 'e' || c == 'i' || c == 'o' || c == 'u' ||
  c == 'ä' || c == 'ö' || c == 'ü'

/-- `text_quality_score` (lines 60-72):
`0.55·(alpha/total) + 0.25·(vowels/max(1,alpha)) + 0.20·min(total/80, 1)`
over the whitespace-stripped text, `0.0` when that text is empty. -/
def text_quality_score (text : List Char) : ℚ :=
  if text = [] then 0
  else
    let t := text.filter (fun c => !(Py.isSpace c))
    if t = [] then 0
    else
      let alpha := t.countP Py.pyIsAlpha
      let vowels := (t.map Py.pyLower).countP isVowel
      let ratio_alpha := Q.div (alpha : ℚ) (t.length : ℚ)
      let ratio_vowel := Q.div (vowels : ℚ) ((max 1 alpha : Nat) : ℚ)
      let length_score := Q.qmin (Q.div (t.length : ℚ) ((80 : Nat) : ℚ)) 1
      Q.add (Q.add (Q.mul (mkRat 55 100) ratio_alpha)
          (Q.mul (mkRat 25 100) ratio_vowel))
        (Q.mul (mkRat 20 100) length_score)

/-- The abstract image-transform capability used by
`preprocess_variants` and `best_ocr_text` (spec §6: any image library
exposing these primitives suffices). -/
structure PILOps (Img : Type) where
  grayscale : Img → Img
  size : Img → Nat × Nat
  resize2x : Img → Img
  autocontrast : Img → Img
  contrast18 : Img → Img
  unsharp : Img → Img
  pointThresh : Nat → Img → Img
  maxminClose : Img → Img
  rotate : Nat → Img → Img

/-- `preprocess_variants` (lines 93-112): grayscale, conditional 2×
upscale (when `max(w,h) < 1600`), then the six variants
`[v1, v2, v3, v4, v5, v6]`. -/
def preprocess_variants {Img : Type} (ops : PILOps Img) (img : Img) :
    List Img :=
  let g := ops.grayscale img
  let wh := ops.size g
  let scale := if max wh.1 wh.2 < 1600 then 2 else 1
  let g := if scale ≠ 1 then ops.resize2x g else g
  let v1 := ops.autocontrast g
  let v2 := ops.contrast18 v1
  let v3 := ops.unsharp v2
  let v4 := ops.pointThresh 170 v3
  let v5 := ops.pointThresh 140 v3
  let v6 := ops.maxminClose v3
  [v1, v2, v3, v4, v5, v6]

def PSMS : List Nat := [5, 6, 7, 11]

def ROTS : List Nat := [0, 90, 270, 180]

def TES_BASE_CONFIG : String := "--oem 1 -l deu+eng"

/-- The two per-PSM Tesseract configurations of lines 130-133. -/
def cfgs (psm : Nat) : List String :=
  [TES_BASE_CONFIG ++ " --psm " ++ toString psm,
   TES_BASE_CONFIG ++ " --psm " ++ toString psm ++
     " -c tessedit_char_blacklist=~`^*_|<>[]\\/"]

/-- `best_ocr_text` (lines 120-143): track the strictly best-scoring
combination over rotations × preprocessing variants × PSMs × the two
configurations; a raising extraction (`ex _ _ = none`) is skipped; the
kept text is the cleaned one.  `ex` is the external text-extraction
capability (`pytesseract.image_to_string`). -/
def best_ocr_text {Img : Type} (ops : PILOps Img)
    (ex : Img → String → Option (List Char)) (img : Img) :
    List Char × ℚ × Nat × Nat :=
  ROTS.foldl (fun acc rot =>
    let rimg := if rot ≠ 0 then ops.rotate rot img else img
    (preprocess_variants ops rimg).foldl (fun acc pv =>
      PSMS.foldl (fun acc psm =>
        (cfgs psm).foldl (fun acc cfg =>
          match ex pv cfg with
          | none => acc
          | some txt =>
            let t := clean txt
            let sc := text_quality_score t
            if acc.2.1 < sc then (t, sc, rot, psm) else acc) acc) acc) acc)
    ([], 0, 0, 6)

/-- The flattened search space of `best_ocr_text`, in enumeration order:
rotation outer, preprocessing variant next, PSM next, configuration
innermost. -/
def comboList {Img : Type} (ops : PILOps Img) (img : Img) :
    List (Nat × Img × Nat × String) :=
  ROTS.flatMap (fun rot =>
    let rimg := if rot ≠ 0 then ops.rotate rot img else img
    (preprocess_variants ops rimg).flatMap (fun pv =>
      PSMS.flatMap (fun psm =>
        (cfgs psm).map (fun cfg => (rot, pv, psm, cfg)))))

/-- Quality attributed to one combination: a raising extraction counts as
quality 0; otherwise the score of the cleaned text. -/
def comboScore {Img : Type} (ex : Img → String → Option (List Char))
    (c : Nat × Img × Nat × String) : ℚ :=
  match ex c.2.1 c.2.2.2 with
  | none => 0
  | some txt => text_quality_score (clean txt)

/-- Cleaned text of one combination (empty for a raising extraction). -/
def comboText {Img : Type} (ex : Img → String → Option (List Char))
    (c : Nat × Img × Nat × String) : List Char :=
  match ex c.2.1 c.2.2.2 with
  | none => []
  | some txt => clean txt

/-- `guess_author`'s collection loop (lines 157-162): append each not yet
seen token that lies in the set, stop once four are collected (`seq` is
accumulated in reverse). -/
def guessLoop (token_set : List (List Char)) :
    List (List Char) → List (List Char) → List (List Char)
  | [], seq => seq.reverse
  | t :: rest, seq =>
    let seq' := if token_set.contains t ∧ ¬ (seq.contains t = true)
      then t :: seq else seq
    if 4 ≤ seq'.length then seq'.reverse
    else guessLoop token_set rest seq'

/-- `guess_author` (lines 147-163). -/
def guess_author (text : List Char) (author_token_set : List (List Char)) :
    List Char × ℚ :=
  let toks := tokens text
  if toks = [] then ([], 0)
  else
    let inter := toks.filter (fun t => author_token_set.contains t)
    if inter = [] then ([], 0)
    else
      let conf := Q.qmin
        (Q.div (inter.length : ℚ)
          ((max 3 (Enhance.dedupF toks []).length : Nat) : ℚ)) 1
      let seq := guessLoop author_token_set toks []
      (List.intercalate [' '] seq, conf)

/-- A concrete trivial image backend (all transforms are the identity on
`Unit`, the reported size forces the 2× upscale branch), used to evaluate
`best_ocr_text` on a closed input. -/
def unitOps : PILOps Unit where
  grayscale := fun _ => ()
  size := fun _ => (100, 100)
  resize2x := fun _ => ()
  autocontrast := fun _ => ()
  contrast18 := fun _ => ()
  unsharp := fun _ => ()
  pointThresh := fun _ _ => ()
  maxminClose := fun _ => ()
  rotate := fun _ _ => ()

/-- A concrete extraction backend returning "Hello" for every
combination. -/
def helloEx : Unit → String → Option (List Char) :=
  fun _ _ => some ("Hello".data)

end OcrRefine

namespace Scan

/-- Ascending insertion into a sorted list (model of the ascending sort
`np.percentile` performs internally). -/
def insertSorted (x : ℕ) : List ℕ → List ℕ
  | [] => [x]
  | y :: ys => if x ≤ y then x :: y :: ys else y :: insertSorted x ys

/-- Ascending sort (insertion sort; the sorted order is unique, so it
agrees with numpy's). -/
def sortAsc (l : List ℕ) : List ℕ := l.foldr insertSorted []

/-- `np.percentile(dark, 20)` with the default linear interpolation, in
exact rational arithmetic: the virtual position is `(n-1)/5`; with
`i = (n-1) / 5` and `r = (n-1) % 5` the value is
`d[i] + (r/5)·(d[i+1] - d[i]) = ((5-r)·d[i] + r·d[i+1]) / 5` over the
ascending sort `d` (`vertical_segments`, line 181; numpy computes this in
floating point, which agrees with the exact value whenever, as here, the
comparisons it feeds are not decided by a sub-ulp margin). -/
def percentile20 (l : List ℕ) : ℚ :=
  let s := sortAsc l
  let n := s.length
  let i := (n - 1) / 5
  let r := (n - 1) % 5
  if r = 0 then ((s.getD i 0 : ℕ) : ℚ)
  else mkRat ((5 - r) * s.getD i 0 + r * s.getD (i + 1) 0) 5

/-- `x0, x1` of lines 172-175: margins cut from each side, reset to the
full width when nothing usable would remain (`x1 <= x0`). -/
def usableBounds (W margin : ℕ) : ℕ × ℕ :=
  let x0 := margin
  let x1 := W - margin
  if x1 ≤ x0 then (0, W) else (x0, x1)

/-- `dark` (line 177): per usable column, the number of pixels strictly
below the threshold. -/
def darkCounts (arr : List (List ℕ)) (x0 x1 threshold : ℕ) : List ℕ :=
  (List.range (x1 - x0)).map (fun j =>
    arr.countP (fun row => row.getD (x0 + j) 0 < threshold))

/-- `gaps` (lines 181-182): a usable column is a gap iff its dark count is
at most the 20th percentile of all dark counts. -/
def gapsOf (arr : List (List ℕ)) (threshold margin : ℕ) : List Bool :=
  let W := (arr.headD []).length
  let b := usableBounds W margin
  let dark := darkCounts arr b.1 b.2 threshold
  dark.map (fun d => decide ((d : ℚ) ≤ percentile20 dark))

/-- The run-detection loop of lines 185-205: `i` is the index of the head
of the remaining gap list, `in_run`/`run_start` the loop state, `segs`
the segments collected so far (appended in order). -/
def segLoop (x0 minw : ℕ) :
    List Bool → ℕ → Bool → ℕ → List (ℕ × ℕ) → List (ℕ × ℕ)
  | [], i, in_run, run_start, segs =>
    if in_run then
      let sx := x0 + run_start
      let ex := x0 + i
      if minw ≤ ex - sx then segs ++ [(sx, ex)] else segs
    else segs
  | g :: rest, i, in_run, run_start, segs =>
    if g then
      if in_run then
        let sx := x0 + run_start
        let ex := x0 + i
        segLoop x0 minw rest (i + 1) false run_start
          (if minw ≤ ex - sx then segs ++ [(sx, ex)] else segs)
      else segLoop x0 minw rest (i + 1) false run_start segs
    else
      if in_run then segLoop x0 minw rest (i + 1) true run_start segs
      else segLoop x0 minw rest (i + 1) true i segs

/-- Specification-side predicate: some maximal run of non-gap columns has
length at least `minw` (`cur` carries the length of the run currently
open, `none` when no run is open). -/
def hasRun (minw : ℕ) : List Bool → Option ℕ → Bool
  | [], none => false
  | [], some cur => minw ≤ cur
  | g :: rest, none =>
    if g then hasRun minw rest none else hasRun minw rest (some 1)
  | g :: rest, some cur =>
    if g then (decide (minw ≤ cur) || hasRun minw rest none)
    else hasRun minw rest (some (cur + 1))

/-- `vertical_segments` (lines 163-211): column projection, 20th-percentile
gap threshold, run detection, whole-image fallback. -/
def vertical_segments (arr : List (List ℕ))
    (min_seg_width threshold margin : ℕ) : List (ℕ × ℕ) :=
  let W := (arr.headD []).length
  let b := usableBounds W margin
  let segments := segLoop b.1 min_seg_width (gapsOf arr threshold margin)
    0 false 0 []
  if segments = [] then [(0, W)] else segments

end Scan

/-! ## Theorems -/

section Theorems

lemma has_gemini_eq_false_iff (b : Db.BookRow) :
    Db.has_gemini b = false ↔
      ∀ cp ∈ b.copies, cp.status_digitalisierung ≠ some ("Gemini-Import".data) := by
  simp [Db.has_gemini]

lemma has_online_verified_eq_false_iff (b : Db.BookRow) :
    Db.has_online_verified b = false ↔
      ∀ cp ∈ b.copies,
        Db.likeOnlineVerifiz ((cp.status_digitalisierung.getD []).map Py.sqlLower)
          = false := by
  simp [Db.has_online_verified]

lemma has_plausible_year_eq_false_iff (cy : Int) (b : Db.BookRow) :
    Db.has_plausible_year cy b = false ↔
      ∀ y : Int, b.publication_year = some y → ¬(1450 ≤ y ∧ y ≤ cy + 1) := by
  cases hy : b.publication_year with
  | none => simp [Db.has_plausible_year, hy]
  | some y => simp [Db.has_plausible_year, hy]

/-- C5: the cleanup operation selects a book record for deletion iff it has
no copy with digitization status exactly "Gemini-Import", no copy whose
status matches "online"+"verifiz" case-insensitively, neither ISBN-10 nor
ISBN-13, no publisher, no publication year in [1450, current year + 1], a
gibberish title (score ≥ 2) and an empty-or-gibberish author; in
particular a record carrying a protective provenance flag is never
selected. -/
theorem C5_cleanup_selects_iff :
    (∀ (cy : Int) (b : Db.BookRow),
      Cleanup.selects cy b = true ↔
        ((∀ cp ∈ b.copies,
            cp.status_digitalisierung ≠ some ("Gemini-Import".data)) ∧
         (∀ cp ∈ b.copies,
            Db.likeOnlineVerifiz
              ((cp.status_digitalisierung.getD []).map Py.sqlLower) = false) ∧
         b.isbn10 = [] ∧ b.isbn13 = [] ∧ b.publisher = [] ∧
         (∀ y : Int, b.publication_year = some y → ¬(1450 ≤ y ∧ y ≤ cy + 1)) ∧
         2 ≤ Cleanup.gibberish_score (some b.title) ∧
         (Py.strip b.author = [] ∨ 2 ≤ Cleanup.gibberish_score (some b.author))))
    ∧
    (∀ (cy : Int) (b : Db.BookRow),
      (Db.has_gemini b = true ∨ Db.has_online_verified b = true) →
      Cleanup.selects cy b = false) := by
  constructor
  · intro cy b
    by_cases hprot : (Db.has_gemini b || Db.has_online_verified b) = true
    · simp only [Cleanup.selects, hprot, if_true]
      constructor
      · intro h; exact absurd h (by simp)
      · rintro ⟨h1, h2, -⟩
        rcases Bool.or_eq_true_iff.mp hprot with hg | ho
        · rw [← Bool.not_eq_false] at hg
          exact absurd ((has_gemini_eq_false_iff b).mpr h1) hg
        · rw [← Bool.not_eq_false] at ho
          exact absurd ((has_online_verified_eq_false_iff b).mpr h2) ho
    · simp only [Bool.or_eq_true, not_or, Bool.not_eq_true] at hprot
      obtain ⟨hg, ho⟩ := hprot
      have hprot : (Db.has_gemini b || Db.has_online_verified b) = false := by
        simp [hg, ho]
      simp only [Cleanup.selects, hprot, if_false, Cleanup.looks_gibberish]
      rw [← has_gemini_eq_false_iff b] at *
      rw [← has_online_verified_eq_false_iff b] at *
      rw [← has_plausible_year_eq_false_iff cy b]
      simp [hg, ho, Bool.and_eq_true, and_assoc, Bool.not_eq_true',
        Bool.or_eq_true_iff, and_comm]
      tauto
  · intro cy b h
    have : (Db.has_gemini b || Db.has_online_verified b) = true := by
      rcases h with h | h <;> simp [h]
    simp [Cleanup.selects, this]

/-- Witness for C5 at a concrete protected record: a book whose only copy
has status "Gemini-Import" is not selected, whatever its other fields. -/
theorem C5_cleanup_selects_iff_witness :
    Cleanup.selects 2026
      { id := 1, title := List.replicate 12 '\\', author := [],
        publisher := [], isbn10 := [], isbn13 := [],
        publication_year := none,
        copies := [{ status_digitalisierung := some ("Gemini-Import".data) }] }
      = false :=
  C5_cleanup_selects_iff.2 2026 _ (Or.inl (by decide))

/-- C8 counterexample: a null or all-whitespace input scores 3, but 3 is
not the maximum score the cleanup classifier can assign — a string of
twelve backslashes scores 5 — so "the score equals the maximum score the
classifier can assign" is false. -/
theorem C8_counterexample :
    Cleanup.gibberish_score (some ("".data)) = 3 ∧
    Cleanup.gibberish_score (some (List.replicate 12 '\\')) = 5 ∧
    ¬ (Cleanup.gibberish_score (some (List.replicate 12 '\\'))
        ≤ Cleanup.gibberish_score (some ("".data))) := by
  refine ⟨by decide, by decide, by decide⟩

/-- C8 amended: for every null or all-whitespace input both gibberish
classifiers return score exactly 3 — which is ≥ 3, above the gibberish
threshold 2, so such input is always classified as gibberish, never
"clean" by absence of data — though 3 is not the maximal assignable
score. -/
theorem C8_null_or_blank_scores_three (t : Option (List Char))
    (h : t = none ∨ ∃ s, t = some s ∧ Py.strip s = []) :
    Cleanup.gibberish_score t = 3 ∧
    Quarantine.gibberish_score t = 3 ∧
    Cleanup.looks_gibberish t = true ∧
    Quarantine.looks_gibberish t = true := by
  rcases h with h | ⟨s, rfl, hs⟩
  · subst h
    exact ⟨rfl, rfl, rfl, rfl⟩
  · refine ⟨?_, ?_, ?_, ?_⟩ <;>
      simp [Cleanup.gibberish_score, Quarantine.gibberish_score,
        Cleanup.looks_gibberish, Quarantine.looks_gibberish, hs]

/-- Witness for the amended C8 at the concrete all-whitespace input "  ". -/
theorem C8_null_or_blank_scores_three_witness :
    Cleanup.gibberish_score (some ("  ".data)) = 3 ∧
    Quarantine.gibberish_score (some ("  ".data)) = 3 ∧
    Cleanup.looks_gibberish (some ("  ".data)) = true ∧
    Quarantine.looks_gibberish (some ("  ".data)) = true :=
  C8_null_or_blank_scores_three (some ("  ".data))
    (Or.inr ⟨"  ".data, rfl, by decide⟩)

/-- C6 (code bug): invoked with the source defaults, `quarantine`
(`apply=False`) leaves the database unchanged, but `cleanup`
(`apply: bool = True`) deletes the selected record — the default
invocation of `cleanup` is destructive, not a dry run.  Evaluated at a
one-record database holding an unprotected gibberish book. -/
theorem C6_cleanup_default_deletes :
    let b : Db.BookRow :=
      { id := 1, title := List.replicate 12 '\\', author := [],
        publisher := [], isbn10 := [], isbn13 := [],
        publication_year := none, copies := [] }
    Cleanup.cleanup_run Cleanup.cleanup_apply_default 2026 [b] = [] ∧
    Cleanup.cleanup_run Cleanup.cleanup_apply_default 2026 [b] ≠ [b] ∧
    Quarantine.quarantine_run Quarantine.quarantine_apply_default
      Quarantine.quarantine_include_foto_default
      Quarantine.quarantine_aggressive_default
      Quarantine.quarantine_ignore_isbn_default 2026 [b] = [b] := by
  refine ⟨by decide, by decide, by decide⟩

/-! ### Bridging lemmas for the computable rational operations -/

theorem Q.add_eq (a b : ℚ) : Q.add a b = a + b := by
  rw [Q.add, Rat.mkRat_eq_divInt, Rat.divInt_eq_div]
  have ha : ((a.den : ℚ)) ≠ 0 := by
    exact_mod_cast a.den_ne_zero
  have hb : ((b.den : ℚ)) ≠ 0 := by
    exact_mod_cast b.den_ne_zero
  push_cast
  conv_rhs => rw [← Rat.num_div_den a, ← Rat.num_div_den b]
  field_simp

theorem Q.mul_eq (a b : ℚ) : Q.mul a b = a * b := by
  rw [Q.mul, Rat.mkRat_eq_divInt, Rat.divInt_eq_div]
  have ha : ((a.den : ℚ)) ≠ 0 := by
    exact_mod_cast a.den_ne_zero
  have hb : ((b.den : ℚ)) ≠ 0 := by
    exact_mod_cast b.den_ne_zero
  push_cast
  conv_rhs => rw [← Rat.num_div_den a, ← Rat.num_div_den b]
  field_simp

theorem Q.div_eq (a b : ℚ) : Q.div a b = a / b := by
  rcases eq_or_ne b 0 with rfl | hb0
  · rw [Q.div]
    norm_num
  · have hnum : b.num ≠ 0 := Rat.num_ne_zero.mpr hb0
    rw [Q.div, Rat.mkRat_eq_divInt, Rat.divInt_eq_div]
    have ha : ((a.den : ℚ)) ≠ 0 := by exact_mod_cast a.den_ne_zero
    have hbden : ((b.den : ℚ)) ≠ 0 := by exact_mod_cast b.den_ne_zero
    have hbq : ((b.num : ℚ)) ≠ 0 := by exact_mod_cast hnum
    rcases hnum.lt_or_lt with hneg | hpos
    · have hsign : b.num.sign = -1 := Int.sign_eq_neg_one_of_neg hneg
      have habs : ((b.num.natAbs : ℤ)) = -b.num := Int.ofNat_natAbs_of_nonpos hneg.le
      rw [hsign]
      push_cast [habs]
      conv_rhs => rw [← Rat.num_div_den a, ← Rat.num_div_den b]
      field_simp
    · have hsign : b.num.sign = 1 := Int.sign_eq_one_of_pos hpos
      have habs : ((b.num.natAbs : ℤ)) = b.num := Int.natAbs_of_nonneg hpos.le
      rw [hsign]
      push_cast [habs]
      conv_rhs => rw [← Rat.num_div_den a, ← Rat.num_div_den b]
      field_simp

theorem Q.qmax_eq (a b : ℚ) : Q.qmax a b = max a b := by
  rcases lt_trichotomy a b with h | h | h
  · rw [Q.qmax, if_pos h, max_eq_right h.le]
  · subst h
    rw [Q.qmax, if_neg (lt_irrefl a), max_self]
  · rw [Q.qmax, if_neg (not_lt.mpr h.le), max_eq_left h.le]

theorem Q.qmin_eq (a b : ℚ) : Q.qmin a b = min a b := by
  rcases lt_trichotomy a b with h | h | h
  · rw [Q.qmin, if_pos h, min_eq_left h.le]
  · subst h
    rw [Q.qmin, if_neg (lt_irrefl a), min_self]
  · rw [Q.qmin, if_neg (not_lt.mpr h.le), min_eq_right h.le]

theorem mkRat_nat_eq_div (n : ℤ) (d : ℕ) : (mkRat n d : ℚ) = (n : ℚ) / d := by
  rw [Rat.mkRat_eq_divInt, Rat.divInt_eq_div]
  push_cast
  ring

/-! ### C7: ISBN-10 checksum -/

/-- C7 counterexample: "1111111111" is accepted by `is_isbn10` (the code
weights the check digit by 10: 45 + 10·1 = 55 ≡ 0 mod 11), while the
claim's formula — positional sum plus the unweighted check-digit value —
gives 45 + 1 = 46 ≢ 0 mod 11, so the claimed acceptance rule is not the
one the code implements. -/
theorem C7_counterexample :
    Enhance.is_isbn10 ("1111111111".data) = true ∧
    ¬ (((("111111111".data).enum.map
          (fun p => (p.1 + 1) * Enhance.digitVal p.2)).sum
        + Enhance.checkVal '1') % 11 = 0) := by
  refine ⟨by decide, by decide⟩

/-- C7 amended: for a 10-character candidate (nine digits and a final
digit or `x`/`X`), ISBN-10 validation succeeds iff the sum of digit×position
over positions 1..9 plus TEN TIMES the check digit's value (10 for `x`/`X`)
is divisible by 11; "080442957X" validates and "1234567890" fails. -/
theorem C7_isbn10_checksum :
    (∀ (ds : List Char) (c : Char),
      ds.length = 9 → (∀ d ∈ ds, Py.pyIsDigit d = true) →
      (Py.pyIsDigit c = true ∨ c = 'X' ∨ c = 'x') →
      (Enhance.is_isbn10 (ds ++ [c]) = true ↔
        ((ds.enum.map (fun p => (p.1 + 1) * Enhance.digitVal p.2)).sum
            + 10 * Enhance.checkVal c) % 11 = 0)) ∧
    Enhance.is_isbn10 ("080442957X".data) = true ∧
    Enhance.is_isbn10 ("1234567890".data) = false := by
  refine ⟨?_, by decide, by decide⟩
  intro ds c hlen hds hc
  have hfilter : Enhance.filterIsbnChars (ds ++ [c]) = ds ++ [c] := by
    rw [Enhance.filterIsbnChars, List.filter_eq_self]
    intro a ha
    rcases List.mem_append.mp ha with ha | ha
    · simp [hds a ha]
    · have : a = c := by simpa using ha
      subst this
      rcases hc with h | h | h
      · simp [h]
      · simp [h]
      · simp [h]
  have hlen10 : (ds ++ [c]).length = 10 := by
    simp [hlen]
  have htake : (ds ++ [c]).take 9 = ds := by
    rw [← hlen]
    exact List.take_left ds [c]
  have hget : (ds ++ [c]).get? 9 = some c := by
    rw [List.get?_eq_getElem?, ← hlen,
      List.getElem?_append_right (Nat.le_refl _)]
    simp
  rw [Enhance.is_isbn10]
  simp only [hfilter, hlen10, htake, hget]
  have hall : ds.all Py.pyIsDigit = true := List.all_eq_true.mpr hds
  simp only [hall]
  norm_num
  rcases hc with h | h | h
  · by_cases hx : c = 'x' ∨ c = 'X'
    · have hcv : Enhance.checkVal c = 10 := by
        rw [Enhance.checkVal,
          if_pos (show (c == 'x' || c == 'X') = true by
            rcases hx with h' | h' <;> simp [h'])]
      rw [if_pos hx, hcv]
    · have hcv : Enhance.checkVal c = Enhance.digitVal c := by
        rw [Enhance.checkVal, if_neg (by simpa using hx)]
      rw [if_neg hx, hcv]
      simp [h]
  · subst h
    rw [if_pos (Or.inr rfl), show Enhance.checkVal 'X' = 10 from by decide]
  · subst h
    rw [if_pos (Or.inl rfl), show Enhance.checkVal 'x' = 10 from by decide]

/-- Witness for the amended C7 at the concrete candidate "080442957X". -/
theorem C7_isbn10_checksum_witness :
    Enhance.is_isbn10 ("080442957".data ++ ['X']) = true ↔
      ((("080442957".data).enum.map
          (fun p => (p.1 + 1) * Enhance.digitVal p.2)).sum
          + 10 * Enhance.checkVal 'X') % 11 = 0 :=
  C7_isbn10_checksum.1 ("080442957".data) 'X' (by decide) (by decide)
    (Or.inr (Or.inl rfl))

/-! ### C1: ISBN short-circuit in the matcher -/

lemma firstValidIsbn_ne_nil {l : List (List Char)} {s : List Char}
    (h : Enhance.firstValidIsbn l = some s) : s ≠ [] := by
  induction l with
  | nil => simp [Enhance.firstValidIsbn] at h
  | cons raw rest ih =>
    rw [Enhance.firstValidIsbn] at h
    split at h
    · intro hnil
      rename_i hval
      rw [Option.some_inj.mp h] at hval
      subst hnil
      revert hval
      decide
    · exact ih h

lemma find_isbn_ne_nil {t s : List Char}
    (h : Enhance.find_isbn t = some s) : s ≠ [] := by
  rw [Enhance.find_isbn] at h
  split at h
  · exact absurd h (by simp)
  · exact firstValidIsbn_ne_nil h

lemma by_isbn_find_mem {cat : List Enhance.CatRow} {k : List Char}
    {bk : Enhance.CatRow} (h : Enhance.by_isbn_find cat k = some bk) :
    bk ∈ cat := by
  rw [Enhance.by_isbn_find] at h
  rcases Option.map_eq_some'.mp h with ⟨p, hp, rfl⟩
  have hmem := List.mem_of_find?_eq_some hp
  rw [List.mem_reverse] at hmem
  rcases List.mem_map.mp hmem with ⟨r, hr, hpr⟩
  rw [← hpr]
  exact (List.mem_filter.mp hr).1

lemma by_id_find_mem {cat : List Enhance.CatRow} {k : List Char}
    {bk : Enhance.CatRow} (h : Enhance.by_id_find cat k = some bk) :
    bk ∈ cat := by
  rw [Enhance.by_id_find] at h
  rcases Option.map_eq_some'.mp h with ⟨p, hp, rfl⟩
  have hmem := List.mem_of_find?_eq_some hp
  rw [List.mem_reverse] at hmem
  rcases List.mem_map.mp hmem with ⟨r, hr, hpr⟩
  rw [← hpr]
  exact hr

/-- C1 counterexample: the catalog holds {id=7, title="Die Blechtrommel",
isbn=9783423135702}; the input text contains that very ISBN verbatim (and
checksum-valid), yet because an earlier checksum-valid ISBN-shaped
substring (9783161484100, not in the catalog) is found first, the matcher
returns status "new" with no id, score 0 and empty reason — not the
claimed "existing"/1.0/"isbn". -/
theorem C1_counterexample :
    let blech : Enhance.CatRow :=
      { id := "7".data, title := "Die Blechtrommel".data, author := [],
        publisher := [], isbn := "9783423135702".data }
    let t := "9783161484100 9783423135702".data
    Enhance.is_isbn13 ("9783423135702".data) = true ∧
    ("9783423135702".data <:+: t) ∧
    Enhance.by_isbn_find [blech] ("9783423135702".data) = some blech ∧
    Enhance.matchRow [blech] t [] 0 =
      { matched_book_id := [], matched_title := [], matched_author := [],
        matched_publisher := [], match_score := 0, status := "new".data,
        reason := [] } := by
  refine ⟨by decide, by decide, by decide, by decide⟩

/-- C1 amended: whenever the FIRST checksum-valid candidate that the
extraction pattern finds in the text (13 digits with optional `978`/`979`
prefix and `-`/space separators, or a bare 10-character run with no
separators) is, after separator removal, a key of the catalog's ISBN map,
the matcher returns status "existing" with that record's id, title,
author and publisher, final score exactly 1.0 and reason "isbn",
regardless of the baseline inputs and of the rest of the catalog — the
baseline and similarity rules never alter this result. -/
theorem C1_isbn_short_circuit (cat : List Enhance.CatRow)
    (text base_id : List Char) (base_score : ℚ)
    (isbn : List Char) (bk : Enhance.CatRow)
    (hfind : Enhance.find_isbn text = some isbn)
    (hlook : Enhance.by_isbn_find cat isbn = some bk) :
    Enhance.matchRow cat text base_id base_score =
      { matched_book_id := bk.id, matched_title := bk.title,
        matched_author := bk.author, matched_publisher := bk.publisher,
        match_score := 1, status := "existing".data,
        reason := "isbn".data } := by
  have hne : isbn ≠ [] := find_isbn_ne_nil hfind
  have hhit : Enhance.isbnHit cat text = some bk := by
    rw [Enhance.isbnHit, hfind]
    simp only [hne, ne_eq, not_false_eq_true, if_true, hlook]
  rw [Enhance.matchRow, hhit]

/-- Witness for the amended C1: the Blechtrommel ISBN with hyphens inside
surrounding text that does not match the title at all. -/
theorem C1_isbn_short_circuit_witness :
    Enhance.matchRow
      [{ id := "7".data, title := "Die Blechtrommel".data, author := [],
         publisher := [], isbn := "9783423135702".data }]
      ("Voellig anderer Titel 978-3-423-13570-2 Rest".data) ("9".data)
      (mkRat 99 100) =
      { matched_book_id := "7".data, matched_title := "Die Blechtrommel".data,
        matched_author := [], matched_publisher := [], match_score := 1,
        status := "existing".data, reason := "isbn".data } :=
  C1_isbn_short_circuit
    [{ id := "7".data, title := "Die Blechtrommel".data, author := [],
       publisher := [], isbn := "9783423135702".data }]
    ("Voellig anderer Titel 978-3-423-13570-2 Rest".data) ("9".data)
    (mkRat 99 100) ("9783423135702".data)
    { id := "7".data, title := "Die Blechtrommel".data, author := [],
      publisher := [], isbn := "9783423135702".data }
    (by decide) (by decide)

/-! ### Generic characterization of the strict-improvement argmax fold -/

lemma ite_lt_eq_max (a b : ℚ) : (if a < b then b else a) = max a b := by
  rcases lt_trichotomy a b with h | h | h
  · rw [if_pos h, max_eq_right h.le]
  · subst h
    rw [if_neg (lt_irrefl a), max_self]
  · rw [if_neg (not_lt.mpr h.le), max_eq_left h.le]

lemma selFold_snd {α β : Type} (f : α → ℚ) (g : α → β) :
    ∀ (l : List α) (acc : β × ℚ),
      (l.foldl (fun acc x => if acc.2 < f x then (g x, f x) else acc) acc).2 =
        (l.map f).foldl max acc.2 := by
  intro l
  induction l with
  | nil => intro acc; rfl
  | cons x xs ih =>
    intro acc
    rw [List.foldl_cons, List.map_cons, List.foldl_cons, ih]
    rcases lt_or_le acc.2 (f x) with h | h
    · rw [if_pos h, max_eq_right h.le]
    · rw [if_neg (not_lt.mpr h), max_eq_left h]

lemma selFold_cases {α β : Type} (f : α → ℚ) (g : α → β) :
    ∀ (l : List α) (acc : β × ℚ),
      (l.foldl (fun acc x => if acc.2 < f x then (g x, f x) else acc) acc = acc ∧
        ∀ x ∈ l, f x ≤ acc.2) ∨
      (∃ pre x post, l = pre ++ x :: post ∧
        l.foldl (fun acc x => if acc.2 < f x then (g x, f x) else acc) acc
          = (g x, f x) ∧
        acc.2 < f x ∧ (∀ y ∈ pre, f y < f x) ∧ (∀ y ∈ post, f y ≤ f x)) := by
  intro l
  induction l with
  | nil => intro acc; exact Or.inl ⟨rfl, by simp⟩
  | cons x xs ih =>
    intro acc
    rcases lt_or_le acc.2 (f x) with hx | hx
    · rcases ih (g x, f x) with ⟨heq, hle⟩ | ⟨pre, z, post, hdec, heq, hgt, hpre, hpost⟩
      · refine Or.inr ⟨[], x, xs, by simp, ?_, hx, by simp, ?_⟩
        · rw [List.foldl_cons, if_pos hx]
          exact heq
        · intro y hy
          exact hle y hy
      · refine Or.inr ⟨x :: pre, z, post, by simp [hdec], ?_, ?_, ?_, hpost⟩
        · rw [List.foldl_cons, if_pos hx]
          exact heq
        · exact lt_trans hx hgt
        · intro y hy
          rcases List.mem_cons.mp hy with rfl | hy
          · exact hgt
          · exact hpre y hy
    · rcases ih acc with ⟨heq, hle⟩ | ⟨pre, z, post, hdec, heq, hgt, hpre, hpost⟩
      · refine Or.inl ⟨?_, ?_⟩
        · rw [List.foldl_cons, if_neg (not_lt.mpr hx)]
          exact heq
        · intro y hy
          rcases List.mem_cons.mp hy with rfl | hy
          · exact hx
          · exact hle y hy
      · refine Or.inr ⟨x :: pre, z, post, by simp [hdec], ?_, hgt, ?_, hpost⟩
        · rw [List.foldl_cons, if_neg (not_lt.mpr hx)]
          exact heq
        · intro y hy
          rcases List.mem_cons.mp hy with rfl | hy
          · exact lt_of_le_of_lt hx hgt
          · exact hpre y hy

/-! ### Characterization of the similarity-scan rule -/

lemma bestFold_eq_selFold (cat : List Enhance.CatRow)
    (a_toks p_toks : List (List Char)) (text : List Char) :
    Enhance.bestFold cat a_toks p_toks text =
      cat.foldl (fun acc x =>
        if acc.2 < Enhance.entryScore a_toks p_toks text x
        then (some x, Enhance.entryScore a_toks p_toks text x) else acc)
        ((none : Option Enhance.CatRow), (0 : ℚ)) := rfl

lemma rule4_spec (cat : List Enhance.CatRow) (a_toks p_toks : List (List Char))
    (text : List Char) (init : Enhance.MatchOut)
    (hstatus : init.status = "new".data) :
    ((Enhance.rule4 cat a_toks p_toks text init).status = "existing".data ↔
      ((Enhance.has_any_token text a_toks = true ∧
          mkRat 75 100 ≤ (cat.map (Enhance.entryScore a_toks p_toks text)).foldl max 0) ∨
        mkRat 88 100 ≤ (cat.map (Enhance.entryScore a_toks p_toks text)).foldl max 0)) ∧
    (((Enhance.has_any_token text a_toks = true ∧
          mkRat 75 100 ≤ (cat.map (Enhance.entryScore a_toks p_toks text)).foldl max 0) ∨
        mkRat 88 100 ≤ (cat.map (Enhance.entryScore a_toks p_toks text)).foldl max 0) →
      ∃ pre bk post, cat = pre ++ bk :: post ∧
        Enhance.entryScore a_toks p_toks text bk =
          (cat.map (Enhance.entryScore a_toks p_toks text)).foldl max 0 ∧
        (∀ y ∈ pre, Enhance.entryScore a_toks p_toks text y <
          (cat.map (Enhance.entryScore a_toks p_toks text)).foldl max 0) ∧
        Enhance.rule4 cat a_toks p_toks text init =
          { matched_book_id := bk.id, matched_title := bk.title,
            matched_author := bk.author, matched_publisher := bk.publisher,
            match_score := max init.match_score
              ((cat.map (Enhance.entryScore a_toks p_toks text)).foldl max 0),
            status := "existing".data,
            reason := if Enhance.has_any_token text a_toks = true ∧
                mkRat 75 100 ≤ (cat.map (Enhance.entryScore a_toks p_toks text)).foldl max 0
              then "author+title".data else "title-only>=0.88".data }) ∧
    (¬ ((Enhance.has_any_token text a_toks = true ∧
          mkRat 75 100 ≤ (cat.map (Enhance.entryScore a_toks p_toks text)).foldl max 0) ∨
        mkRat 88 100 ≤ (cat.map (Enhance.entryScore a_toks p_toks text)).foldl max 0) →
      Enhance.rule4 cat a_toks p_toks text init = init) := by
  have hsnd := selFold_snd (Enhance.entryScore a_toks p_toks text)
    (fun bk => some bk) cat ((none : Option Enhance.CatRow), (0 : ℚ))
  rcases selFold_cases (Enhance.entryScore a_toks p_toks text)
      (fun bk => some bk) cat ((none : Option Enhance.CatRow), (0 : ℚ)) with
    ⟨heq, hle⟩ | ⟨pre, bk, post, hdec, heq, hgt, hpre, hpost⟩
  · have hbf : Enhance.bestFold cat a_toks p_toks text = (none, 0) := by
      rw [bestFold_eq_selFold]
      exact heq
    have hbs : (cat.map (Enhance.entryScore a_toks p_toks text)).foldl max 0 = 0 := by
      rw [← hsnd, heq]
    have hr : Enhance.rule4 cat a_toks p_toks text init = init := by
      rw [Enhance.rule4, hbf]
    rw [hr, hbs, hstatus]
    have h75 : ¬ (mkRat 75 100 ≤ (0 : ℚ)) := by decide
    have h88 : ¬ (mkRat 88 100 ≤ (0 : ℚ)) := by decide
    refine ⟨?_, ?_, ?_⟩
    · constructor
      · intro h
        exact absurd h (by decide)
      · rintro (⟨-, h⟩ | h)
        · exact absurd h h75
        · exact absurd h h88
    · rintro (⟨-, h⟩ | h)
      · exact absurd h h75
      · exact absurd h h88
    · intro h
      rfl
  · have hbf : Enhance.bestFold cat a_toks p_toks text =
        (some bk, Enhance.entryScore a_toks p_toks text bk) := by
      rw [bestFold_eq_selFold]
      exact heq
    have hbs : (cat.map (Enhance.entryScore a_toks p_toks text)).foldl max 0 =
        Enhance.entryScore a_toks p_toks text bk := by
      rw [← hsnd, heq]
    rw [hbs]
    by_cases hC : (Enhance.has_any_token text a_toks = true ∧
        mkRat 75 100 ≤ Enhance.entryScore a_toks p_toks text bk) ∨
        mkRat 88 100 ≤ Enhance.entryScore a_toks p_toks text bk
    · have hr : Enhance.rule4 cat a_toks p_toks text init =
          { matched_book_id := bk.id, matched_title := bk.title,
            matched_author := bk.author, matched_publisher := bk.publisher,
            match_score := max init.match_score
              (Enhance.entryScore a_toks p_toks text bk),
            status := "existing".data,
            reason := if Enhance.has_any_token text a_toks = true ∧
                mkRat 75 100 ≤ Enhance.entryScore a_toks p_toks text bk
              then "author+title".data else "title-only>=0.88".data } := by
        rw [Enhance.rule4, hbf]
        simp only [if_pos hC, Q.qmax_eq]
      rw [hr]
      refine ⟨by simp [hC], ?_, fun h => absurd hC h⟩
      intro h
      exact ⟨pre, bk, post, hdec, rfl, hpre, rfl⟩
    · have hr : Enhance.rule4 cat a_toks p_toks text init = init := by
        rw [Enhance.rule4, hbf]
        simp only [if_neg hC]
      rw [hr, hstatus]
      refine ⟨?_, fun h => absurd h hC, fun h => rfl⟩
      constructor
      · intro h
        exact absurd h (by decide)
      · intro h
        exact absurd h hC

/-- C2: when neither the ISBN rule nor the high-confidence baseline rule
fires, the matcher accepts iff (the text contains some author-index token
and the best per-entry score is ≥ 0.75) or the best score is ≥ 0.88; on
acceptance the matched fields come from the first best-scoring entry,
final score is max(carried score, best score), and the reason is
"author+title" or "title-only>=0.88" respectively; otherwise the status
stays "new". -/
theorem C2_similarity_acceptance (cat : List Enhance.CatRow)
    (text base_id : List Char) (base_score : ℚ)
    (h1 : ∀ isbn, Enhance.find_isbn text = some isbn →
      Enhance.by_isbn_find cat isbn = none)
    (h2 : base_id ≠ [] → ∀ bk, Enhance.by_id_find cat base_id = some bk →
      base_score < 0.84) :
    ((Enhance.matchRow cat text base_id base_score).status = "existing".data ↔
      ((Enhance.has_any_token text (Enhance.author_tokens cat) = true ∧
          (0.75 : ℚ) ≤ (cat.map (Enhance.entryScore (Enhance.author_tokens cat)
            (Enhance.publisher_tokens cat) text)).foldl max 0) ∨
        (0.88 : ℚ) ≤ (cat.map (Enhance.entryScore (Enhance.author_tokens cat)
          (Enhance.publisher_tokens cat) text)).foldl max 0)) ∧
    (((Enhance.has_any_token text (Enhance.author_tokens cat) = true ∧
          (0.75 : ℚ) ≤ (cat.map (Enhance.entryScore (Enhance.author_tokens cat)
            (Enhance.publisher_tokens cat) text)).foldl max 0) ∨
        (0.88 : ℚ) ≤ (cat.map (Enhance.entryScore (Enhance.author_tokens cat)
          (Enhance.publisher_tokens cat) text)).foldl max 0) →
      ∃ pre bk post, cat = pre ++ bk :: post ∧
        Enhance.entryScore (Enhance.author_tokens cat)
            (Enhance.publisher_tokens cat) text bk =
          (cat.map (Enhance.entryScore (Enhance.author_tokens cat)
            (Enhance.publisher_tokens cat) text)).foldl max 0 ∧
        (∀ y ∈ pre, Enhance.entryScore (Enhance.author_tokens cat)
            (Enhance.publisher_tokens cat) text y <
          (cat.map (Enhance.entryScore (Enhance.author_tokens cat)
            (Enhance.publisher_tokens cat) text)).foldl max 0) ∧
        (Enhance.matchRow cat text base_id base_score).matched_book_id = bk.id ∧
        (Enhance.matchRow cat text base_id base_score).matched_title = bk.title ∧
        (Enhance.matchRow cat text base_id base_score).matched_author = bk.author ∧
        (Enhance.matchRow cat text base_id base_score).matched_publisher
          = bk.publisher ∧
        (Enhance.matchRow cat text base_id base_score).match_score =
          max base_score ((cat.map (Enhance.entryScore (Enhance.author_tokens cat)
            (Enhance.publisher_tokens cat) text)).foldl max 0) ∧
        (Enhance.matchRow cat text base_id base_score).reason =
          (if Enhance.has_any_token text (Enhance.author_tokens cat) = true ∧
              (0.75 : ℚ) ≤ (cat.map (Enhance.entryScore (Enhance.author_tokens cat)
                (Enhance.publisher_tokens cat) text)).foldl max 0
            then "author+title".data else "title-only>=0.88".data)) ∧
    (¬ ((Enhance.has_any_token text (Enhance.author_tokens cat) = true ∧
          (0.75 : ℚ) ≤ (cat.map (Enhance.entryScore (Enhance.author_tokens cat)
            (Enhance.publisher_tokens cat) text)).foldl max 0) ∨
        (0.88 : ℚ) ≤ (cat.map (Enhance.entryScore (Enhance.author_tokens cat)
          (Enhance.publisher_tokens cat) text)).foldl max 0) →
      (Enhance.matchRow cat text base_id base_score).status = "new".data) := by
  have e75 : (mkRat 75 100 : ℚ) = 0.75 := by
    rw [mkRat_nat_eq_div]
    norm_num
  have e88 : (mkRat 88 100 : ℚ) = 0.88 := by
    rw [mkRat_nat_eq_div]
    norm_num
  have e84 : (mkRat 84 100 : ℚ) = 0.84 := by
    rw [mkRat_nat_eq_div]
    norm_num
  have hstep : Enhance.matchRow cat text base_id base_score =
      (match Enhance.baseHit cat base_id with
       | some bk =>
         Enhance.rule4 cat (Enhance.author_tokens cat)
           (Enhance.publisher_tokens cat) text
           { matched_book_id := base_id, matched_title := bk.title,
             matched_author := bk.author, matched_publisher := bk.publisher,
             match_score := base_score, status := "new".data,
             reason := "baseline-suggestion".data }
       | none =>
         Enhance.rule4 cat (Enhance.author_tokens cat)
           (Enhance.publisher_tokens cat) text
           { matched_book_id := [], matched_title := [], matched_author := [],
             matched_publisher := [], match_score := base_score,
             status := "new".data, reason := [] }) := by
    have hhit : Enhance.isbnHit cat text = none := by
      rw [Enhance.isbnHit]
      cases hfi : Enhance.find_isbn text with
      | none => rfl
      | some isbn => simp only [h1 isbn hfi, ite_self]
    rw [Enhance.matchRow, hhit]
    cases hbh : Enhance.baseHit cat base_id with
    | none => rfl
    | some bk =>
      have hbase : base_id ≠ [] ∧ Enhance.by_id_find cat base_id = some bk := by
        rw [Enhance.baseHit] at hbh
        by_cases hbi : base_id ≠ []
        · rw [if_pos hbi] at hbh
          exact ⟨hbi, hbh⟩
        · rw [if_neg hbi] at hbh
          exact absurd hbh (by simp)
      have hlt : ¬ (mkRat 84 100 ≤ base_score) := by
        rw [e84, not_le]
        exact h2 hbase.1 bk hbase.2
      simp only [if_neg hlt]
  rw [← e75, ← e88, hstep]
  cases hbh : Enhance.baseHit cat base_id with
  | none =>
    have hmr : (match (none : Option Enhance.CatRow) with
       | some bk =>
         Enhance.rule4 cat (Enhance.author_tokens cat)
           (Enhance.publisher_tokens cat) text
           { matched_book_id := base_id, matched_title := bk.title,
             matched_author := bk.author, matched_publisher := bk.publisher,
             match_score := base_score, status := "new".data,
             reason := "baseline-suggestion".data }
       | none =>
         Enhance.rule4 cat (Enhance.author_tokens cat)
           (Enhance.publisher_tokens cat) text
           { matched_book_id := [], matched_title := [], matched_author := [],
             matched_publisher := [], match_score := base_score,
             status := "new".data, reason := [] }) =
        Enhance.rule4 cat (Enhance.author_tokens cat)
          (Enhance.publisher_tokens cat) text
          { matched_book_id := [], matched_title := [], matched_author := [],
            matched_publisher := [], match_score := base_score,
            status := "new".data, reason := [] } := rfl
    rw [hmr]
    have h := rule4_spec cat (Enhance.author_tokens cat)
      (Enhance.publisher_tokens cat) text
      { matched_book_id := [], matched_title := [], matched_author := [],
        matched_publisher := [], match_score := base_score,
        status := "new".data, reason := [] } rfl
    refine ⟨h.1, ?_, fun hn => by rw [h.2.2 hn]⟩
    intro hacc
    rcases h.2.1 hacc with ⟨pre, bk, post, hdec, hbk, hpre, hr⟩
    exact ⟨pre, bk, post, hdec, hbk, hpre, by rw [hr], by rw [hr], by rw [hr],
      by rw [hr], by rw [hr], by rw [hr]⟩
  | some bk0 =>
    have hmr : (match (some bk0 : Option Enhance.CatRow) with
       | some bk =>
         Enhance.rule4 cat (Enhance.author_tokens cat)
           (Enhance.publisher_tokens cat) text
           { matched_book_id := base_id, matched_title := bk.title,
             matched_author := bk.author, matched_publisher := bk.publisher,
             match_score := base_score, status := "new".data,
             reason := "baseline-suggestion".data }
       | none =>
         Enhance.rule4 cat (Enhance.author_tokens cat)
           (Enhance.publisher_tokens cat) text
           { matched_book_id := [], matched_title := [], matched_author := [],
             matched_publisher := [], match_score := base_score,
             status := "new".data, reason := [] }) =
        Enhance.rule4 cat (Enhance.author_tokens cat)
          (Enhance.publisher_tokens cat) text
          { matched_book_id := base_id, matched_title := bk0.title,
            matched_author := bk0.author, matched_publisher := bk0.publisher,
            match_score := base_score, status := "new".data,
            reason := "baseline-suggestion".data } := rfl
    rw [hmr]
    have h := rule4_spec cat (Enhance.author_tokens cat)
      (Enhance.publisher_tokens cat) text
      { matched_book_id := base_id, matched_title := bk0.title,
        matched_author := bk0.author, matched_publisher := bk0.publisher,
        match_score := base_score, status := "new".data,
        reason := "baseline-suggestion".data } rfl
    refine ⟨h.1, ?_, fun hn => by rw [h.2.2 hn]⟩
    intro hacc
    rcases h.2.1 hacc with ⟨pre, bk, post, hdec, hbk, hpre, hr⟩
    exact ⟨pre, bk, post, hdec, hbk, hpre, by rw [hr], by rw [hr], by rw [hr],
      by rw [hr], by rw [hr], by rw [hr]⟩

/-- Witness for C2 at a one-entry catalog whose title equals the input
text: the similarity rule fires with best score 1 ≥ 0.88 and the matcher
reports the entry as existing. -/
theorem C2_similarity_acceptance_witness :
    (Enhance.matchRow
      [{ id := "7".data, title := "abc".data, author := [], publisher := [],
         isbn := [] }] ("abc".data) [] 0).status = "existing".data := by
  have h := C2_similarity_acceptance
    [{ id := "7".data, title := "abc".data, author := [], publisher := [],
       isbn := [] }] ("abc".data) [] 0
    (by intro isbn _; rfl)
    (by intro hb; exact absurd rfl hb)
  apply h.1.mpr
  right
  have e88 : (0.88 : ℚ) = mkRat 88 100 := by
    rw [mkRat_nat_eq_div]
    norm_num
  rw [List.map_cons, List.map_nil, List.foldl_cons, List.foldl_nil, e88]
  have hs : mkRat 88 100 ≤ Enhance.entryScore
      (Enhance.author_tokens
        [{ id := "7".data, title := "abc".data, author := [], publisher := [],
           isbn := [] }])
      (Enhance.publisher_tokens
        [{ id := "7".data, title := "abc".data, author := [], publisher := [],
           isbn := [] }]) ("abc".data)
      { id := "7".data, title := "abc".data, author := [], publisher := [],
        isbn := [] } := by decide
  exact le_trans hs (le_max_right 0 _)

/-! ### C10: MatchResult invariant -/

lemma baseHit_some {cat : List Enhance.CatRow} {base_id : List Char}
    {bk : Enhance.CatRow} (h : Enhance.baseHit cat base_id = some bk) :
    base_id ≠ [] ∧ Enhance.by_id_find cat base_id = some bk := by
  rw [Enhance.baseHit] at h
  by_cases hbi : base_id ≠ []
  · rw [if_pos hbi] at h
    exact ⟨hbi, h⟩
  · rw [if_neg hbi] at h
    exact absurd h (by simp)

lemma isbnHit_mem {cat : List Enhance.CatRow} {text : List Char}
    {bk : Enhance.CatRow} (h : Enhance.isbnHit cat text = some bk) :
    bk ∈ cat := by
  rw [Enhance.isbnHit] at h
  cases hfi : Enhance.find_isbn text with
  | none =>
    rw [hfi] at h
    exact absurd h (by simp)
  | some isbn =>
    rw [hfi] at h
    have h' : (if isbn ≠ [] then Enhance.by_isbn_find cat isbn else none)
        = some bk := h
    by_cases hne : isbn ≠ []
    · rw [if_pos hne] at h'
      exact by_isbn_find_mem h'
    · rw [if_neg hne] at h'
      exact absurd h' (by simp)

lemma rule4_cases (cat : List Enhance.CatRow) (a_toks p_toks : List (List Char))
    (text : List Char) (init : Enhance.MatchOut) :
    Enhance.rule4 cat a_toks p_toks text init = init ∨
    ∃ bk ∈ cat,
      (Enhance.rule4 cat a_toks p_toks text init).matched_book_id = bk.id ∧
      (Enhance.rule4 cat a_toks p_toks text init).status = "existing".data ∧
      ((Enhance.rule4 cat a_toks p_toks text init).reason = "author+title".data ∨
        (Enhance.rule4 cat a_toks p_toks text init).reason
          = "title-only>=0.88".data) := by
  rcases selFold_cases (Enhance.entryScore a_toks p_toks text)
      (fun bk => some bk) cat ((none : Option Enhance.CatRow), (0 : ℚ)) with
    ⟨heq, -⟩ | ⟨pre, bk, post, hdec, heq, -, -, -⟩
  · left
    have hbf : Enhance.bestFold cat a_toks p_toks text = (none, 0) := by
      rw [bestFold_eq_selFold]
      exact heq
    rw [Enhance.rule4, hbf]
  · have hbf : Enhance.bestFold cat a_toks p_toks text =
        (some bk, Enhance.entryScore a_toks p_toks text bk) := by
      rw [bestFold_eq_selFold]
      exact heq
    have hmem : bk ∈ cat := by
      rw [hdec]
      exact List.mem_append.mpr (Or.inr (List.mem_cons_self _ _))
    by_cases hC : (Enhance.has_any_token text a_toks = true ∧
        mkRat 75 100 ≤ Enhance.entryScore a_toks p_toks text bk) ∨
        mkRat 88 100 ≤ Enhance.entryScore a_toks p_toks text bk
    · right
      refine ⟨bk, hmem, ?_⟩
      have hr : Enhance.rule4 cat a_toks p_toks text init =
          { matched_book_id := bk.id, matched_title := bk.title,
            matched_author := bk.author, matched_publisher := bk.publisher,
            match_score := Q.qmax init.match_score
              (Enhance.entryScore a_toks p_toks text bk),
            status := "existing".data,
            reason := if Enhance.has_any_token text a_toks = true ∧
                mkRat 75 100 ≤ Enhance.entryScore a_toks p_toks text bk
              then "author+title".data else "title-only>=0.88".data } := by
        rw [Enhance.rule4, hbf]
        simp only [if_pos hC]
      rw [hr]
      refine ⟨rfl, rfl, ?_⟩
      by_cases h75 : Enhance.has_any_token text a_toks = true ∧
          mkRat 75 100 ≤ Enhance.entryScore a_toks p_toks text bk
      · exact Or.inl (by rw [if_pos h75])
      · exact Or.inr (by rw [if_neg h75])
    · left
      rw [Enhance.rule4, hbf]
      simp only [if_neg hC]

/-- C10: every MatchResult has status "existing" or "new"; status
"existing" always carries one of the four rule reason codes; and, for a
catalog whose records all have a non-empty id, the matched id is
non-empty iff the status is "existing" or a baseline suggestion was
carried forward (a truthy baseline id that resolves in the catalog). -/
theorem C10_matchresult_invariant (cat : List Enhance.CatRow)
    (text base_id : List Char) (base_score : ℚ)
    (hid : ∀ bk ∈ cat, bk.id ≠ []) :
    ((Enhance.matchRow cat text base_id base_score).status = "existing".data ∨
      (Enhance.matchRow cat text base_id base_score).status = "new".data) ∧
    ((Enhance.matchRow cat text base_id base_score).status = "existing".data →
      (Enhance.matchRow cat text base_id base_score).reason = "isbn".data ∨
      (Enhance.matchRow cat text base_id base_score).reason
        = "baseline>=0.84".data ∨
      (Enhance.matchRow cat text base_id base_score).reason
        = "author+title".data ∨
      (Enhance.matchRow cat text base_id base_score).reason
        = "title-only>=0.88".data) ∧
    ((Enhance.matchRow cat text base_id base_score).matched_book_id ≠ [] ↔
      ((Enhance.matchRow cat text base_id base_score).status = "existing".data ∨
        (base_id ≠ [] ∧ (Enhance.by_id_find cat base_id).isSome = true))) := by
  cases hhit : Enhance.isbnHit cat text with
  | some bk =>
    have hmr : Enhance.matchRow cat text base_id base_score =
        { matched_book_id := bk.id, matched_title := bk.title,
          matched_author := bk.author, matched_publisher := bk.publisher,
          match_score := 1, status := "existing".data,
          reason := "isbn".data } := by
      rw [Enhance.matchRow, hhit]
    have hbkid : bk.id ≠ [] := hid bk (isbnHit_mem hhit)
    rw [hmr]
    exact ⟨Or.inl rfl, fun _ => Or.inl rfl,
      ⟨fun _ => Or.inl rfl, fun _ => hbkid⟩⟩
  | none =>
    cases hbh : Enhance.baseHit cat base_id with
    | some bk0 =>
      have hbase := baseHit_some hbh
      have hmr0 : Enhance.matchRow cat text base_id base_score =
          (if mkRat 84 100 ≤ base_score then
            { matched_book_id := base_id, matched_title := bk0.title,
              matched_author := bk0.author, matched_publisher := bk0.publisher,
              match_score := base_score, status := "existing".data,
              reason := "baseline>=0.84".data }
          else
            Enhance.rule4 cat (Enhance.author_tokens cat)
              (Enhance.publisher_tokens cat) text
              { matched_book_id := base_id, matched_title := bk0.title,
                matched_author := bk0.author, matched_publisher := bk0.publisher,
                match_score := base_score, status := "new".data,
                reason := "baseline-suggestion".data }) := by
        rw [Enhance.matchRow, hhit, hbh]
      by_cases h84 : mkRat 84 100 ≤ base_score
      · have hmr : Enhance.matchRow cat text base_id base_score =
            { matched_book_id := base_id, matched_title := bk0.title,
              matched_author := bk0.author, matched_publisher := bk0.publisher,
              match_score := base_score, status := "existing".data,
              reason := "baseline>=0.84".data } := by
          rw [hmr0, if_pos h84]
        rw [hmr]
        exact ⟨Or.inl rfl, fun _ => Or.inr (Or.inl rfl),
          ⟨fun _ => Or.inl rfl, fun _ => hbase.1⟩⟩
      · have hmr : Enhance.matchRow cat text base_id base_score =
            Enhance.rule4 cat (Enhance.author_tokens cat)
              (Enhance.publisher_tokens cat) text
              { matched_book_id := base_id, matched_title := bk0.title,
                matched_author := bk0.author, matched_publisher := bk0.publisher,
                match_score := base_score, status := "new".data,
                reason := "baseline-suggestion".data } := by
          rw [hmr0, if_neg h84]
        rw [hmr]
        rcases rule4_cases cat (Enhance.author_tokens cat)
            (Enhance.publisher_tokens cat) text
            { matched_book_id := base_id, matched_title := bk0.title,
              matched_author := bk0.author, matched_publisher := bk0.publisher,
              match_score := base_score, status := "new".data,
              reason := "baseline-suggestion".data } with
          heq | ⟨bk, hmem, hidf, hstat, hreason⟩
        · rw [heq]
          refine ⟨Or.inr rfl, fun hst =>
            absurd (show "new".data = "existing".data from hst) (by decide), ?_⟩
          exact ⟨fun _ => Or.inr ⟨hbase.1, by rw [hbase.2]; rfl⟩,
            fun _ => hbase.1⟩
        · refine ⟨Or.inl hstat, fun _ => ?_, ?_⟩
          · rcases hreason with h | h
            · exact Or.inr (Or.inr (Or.inl h))
            · exact Or.inr (Or.inr (Or.inr h))
          · exact ⟨fun _ => Or.inl hstat,
              fun _ => by rw [hidf]; exact hid bk hmem⟩
    | none =>
      have hnot : ¬ (base_id ≠ [] ∧
          (Enhance.by_id_find cat base_id).isSome = true) := by
        rw [Enhance.baseHit] at hbh
        by_cases hbi : base_id ≠ []
        · rw [if_pos hbi] at hbh
          rintro ⟨-, hsome⟩
          rw [hbh] at hsome
          exact absurd hsome (by simp)
        · rintro ⟨h, -⟩
          exact hbi h
      have hmr : Enhance.matchRow cat text base_id base_score =
          Enhance.rule4 cat (Enhance.author_tokens cat)
            (Enhance.publisher_tokens cat) text
            { matched_book_id := [], matched_title := [], matched_author := [],
              matched_publisher := [], match_score := base_score,
              status := "new".data, reason := [] } := by
        rw [Enhance.matchRow, hhit, hbh]
      rw [hmr]
      rcases rule4_cases cat (Enhance.author_tokens cat)
          (Enhance.publisher_tokens cat) text
          { matched_book_id := [], matched_title := [], matched_author := [],
            matched_publisher := [], match_score := base_score,
            status := "new".data, reason := [] } with
        heq | ⟨bk, hmem, hidf, hstat, hreason⟩
      · rw [heq]
        refine ⟨Or.inr rfl, fun hst =>
          absurd (show "new".data = "existing".data from hst) (by decide), ?_⟩
        constructor
        · intro habs
          exact absurd rfl habs
        · rintro (hst | hcar)
          · exact absurd (show "new".data = "existing".data from hst) (by decide)
          · exact absurd hcar hnot
      · refine ⟨Or.inl hstat, fun _ => ?_, ?_⟩
        · rcases hreason with h | h
          · exact Or.inr (Or.inr (Or.inl h))
          · exact Or.inr (Or.inr (Or.inr h))
        · exact ⟨fun _ => Or.inl hstat,
            fun _ => by rw [hidf]; exact hid bk hmem⟩

/-- Witness for C10 at a concrete catalog and text: the reason code and
id invariant evaluated on the Blechtrommel example. -/
theorem C10_matchresult_invariant_witness :
    ((Enhance.matchRow
        [{ id := "7".data, title := "Die Blechtrommel".data, author := [],
           publisher := [], isbn := "9783423135702".data }]
        ("irgendwas 9783423135702".data) [] 0).status = "existing".data ∨
      (Enhance.matchRow
        [{ id := "7".data, title := "Die Blechtrommel".data, author := [],
           publisher := [], isbn := "9783423135702".data }]
        ("irgendwas 9783423135702".data) [] 0).status = "new".data) ∧
    ((Enhance.matchRow
        [{ id := "7".data, title := "Die Blechtrommel".data, author := [],
           publisher := [], isbn := "9783423135702".data }]
        ("irgendwas 9783423135702".data) [] 0).status = "existing".data →
      (Enhance.matchRow
        [{ id := "7".data, title := "Die Blechtrommel".data, author := [],
           publisher := [], isbn := "9783423135702".data }]
        ("irgendwas 9783423135702".data) [] 0).reason = "isbn".data ∨
      (Enhance.matchRow
        [{ id := "7".data, title := "Die Blechtrommel".data, author := [],
           publisher := [], isbn := "9783423135702".data }]
        ("irgendwas 9783423135702".data) [] 0).reason = "baseline>=0.84".data ∨
      (Enhance.matchRow
        [{ id := "7".data, title := "Die Blechtrommel".data, author := [],
           publisher := [], isbn := "9783423135702".data }]
        ("irgendwas 9783423135702".data) [] 0).reason = "author+title".data ∨
      (Enhance.matchRow
        [{ id := "7".data, title := "Die Blechtrommel".data, author := [],
           publisher := [], isbn := "9783423135702".data }]
        ("irgendwas 9783423135702".data) [] 0).reason = "title-only>=0.88".data) ∧
    ((Enhance.matchRow
        [{ id := "7".data, title := "Die Blechtrommel".data, author := [],
           publisher := [], isbn := "9783423135702".data }]
        ("irgendwas 9783423135702".data) [] 0).matched_book_id ≠ [] ↔
      ((Enhance.matchRow
          [{ id := "7".data, title := "Die Blechtrommel".data, author := [],
             publisher := [], isbn := "9783423135702".data }]
          ("irgendwas 9783423135702".data) [] 0).status = "existing".data ∨
        (([] : List Char) ≠ [] ∧
          (Enhance.by_id_find
            [{ id := "7".data, title := "Die Blechtrommel".data, author := [],
               publisher := [], isbn := "9783423135702".data }]
            ([] : List Char)).isSome = true))) :=
  C10_matchresult_invariant
    [{ id := "7".data, title := "Die Blechtrommel".data, author := [],
       publisher := [], isbn := "9783423135702".data }]
    ("irgendwas 9783423135702".data) [] 0 (by decide)

/-! ### C9: author guess -/

/-- C9 counterexample: on "kafka kafka kafka kafka" against the author set
{kafka}, the code counts token OCCURRENCES (4), giving
min(4 / max(3, 1), 1) = 1, while the claim's set-intersection formula
gives |{kafka}| / max(3, 1) = 1/3. -/
theorem C9_counterexample :
    (OcrRefine.guess_author ("kafka kafka kafka kafka".data)
      [("kafka".data)]).2 = 1 ∧
    ((Enhance.dedupF (OcrRefine.tokens ("kafka kafka kafka kafka".data)) []).countP
        (fun t => [("kafka".data)].contains t) = 1 ∧
      max 3 (Enhance.dedupF
        (OcrRefine.tokens ("kafka kafka kafka kafka".data)) []).length = 3) ∧
    (1 : ℚ) ≠ 1 / 3 := by
  refine ⟨by decide, ⟨by decide, by decide⟩, by norm_num⟩

lemma guessLoop_eq (S : List (List Char)) :
    ∀ (l : List (List Char)) (seq : List (List Char)), seq.length < 4 →
      OcrRefine.guessLoop S l seq =
        seq.reverse ++
          (Enhance.dedupF (l.filter (fun t => S.contains t)) seq).take
            (4 - seq.length) := by
  intro l
  induction l with
  | nil =>
    intro seq hlen
    simp [OcrRefine.guessLoop, Enhance.dedupF]
  | cons t rest ih =>
    intro seq hlen
    have hbreak : ¬ 4 ≤ seq.length := by omega
    by_cases hS : t ∈ S
    · have hfil : (t :: rest).filter (fun t => S.contains t) =
          t :: rest.filter (fun t => S.contains t) := by
        simp [List.filter_cons, hS]
      by_cases hseen : t ∈ seq
      · have hcond : ¬ (S.contains t = true ∧ ¬ seq.contains t = true) := by
          simp [hseen]
        have hctn : seq.contains t = true := by simp [hseen]
        rw [OcrRefine.guessLoop, if_neg hcond, if_neg hbreak, ih seq hlen,
          hfil, Enhance.dedupF, if_pos hctn]
      · have hcond : S.contains t = true ∧ ¬ seq.contains t = true := by
          simp [hS, hseen]
        have hctn : ¬ seq.contains t = true := by simp [hseen]
        rw [OcrRefine.guessLoop, if_pos hcond, hfil, Enhance.dedupF,
          if_neg hctn]
        have htake : 4 - seq.length = (4 - (seq.length + 1)) + 1 := by omega
        rw [htake, List.take_succ_cons]
        by_cases hfour : 4 ≤ (t :: seq).length
        · rw [if_pos hfour]
          have hz : 4 - (seq.length + 1) = 0 := by
            simp only [List.length_cons] at hfour
            omega
          rw [hz, List.take_zero]
          simp
        · rw [if_neg hfour]
          rw [ih (t :: seq) (by simp only [List.length_cons] at hfour ⊢; omega)]
          simp
    · have hfil : (t :: rest).filter (fun t => S.contains t) =
          rest.filter (fun t => S.contains t) := by
        simp [List.filter_cons, hS]
      have hcond : ¬ (S.contains t = true ∧ ¬ seq.contains t = true) := by
        simp [hS]
      rw [OcrRefine.guessLoop, if_neg hcond, if_neg hbreak, ih seq hlen, hfil]

/-- C9 amended: the author guesser returns confidence
min(#occurrences of author-set tokens in the token list / max(3, #distinct
tokens), 1) — occurrences with multiplicity, not the set intersection —
and emits the first at most 4 distinct matching tokens in text order
joined by spaces; when no token matches (or the text has no tokens) it
returns the empty string with confidence 0. -/
theorem C9_guess_author (text : List Char) (S : List (List Char)) :
    ((OcrRefine.tokens text = [] ∨
        (OcrRefine.tokens text).filter (fun t => S.contains t) = []) →
      OcrRefine.guess_author text S = ([], 0)) ∧
    ((OcrRefine.tokens text).filter (fun t => S.contains t) ≠ [] →
      OcrRefine.guess_author text S =
        (List.intercalate [' ']
          ((Enhance.dedupF ((OcrRefine.tokens text).filter
              (fun t => S.contains t)) []).take 4),
         min ((((OcrRefine.tokens text).filter
              (fun t => S.contains t)).length : ℚ) /
            ((max 3 (Enhance.dedupF (OcrRefine.tokens text) []).length : Nat) : ℚ))
          1)) := by
  constructor
  · rintro (h | h)
    · rw [OcrRefine.guess_author, if_pos h]
    · rw [OcrRefine.guess_author]
      by_cases htoks : OcrRefine.tokens text = []
      · rw [if_pos htoks]
      · rw [if_neg htoks, if_pos h]
  · intro h
    have htoks : OcrRefine.tokens text ≠ [] := by
      intro hnil
      apply h
      rw [hnil]
      rfl
    rw [OcrRefine.guess_author, if_neg htoks, if_neg h]
    rw [guessLoop_eq S (OcrRefine.tokens text) [] (by decide)]
    rw [Q.qmin_eq, Q.div_eq]
    simp

/-- Witness for C9: on "Thomas Mann und Heinrich Mann und Golo Mann" against
the author-token set {mann, thomas, heinrich, golo, kafka}, six of the eight
tokens match (with multiplicity) and five are distinct, so the confidence is
min(6/5, 1) = 1 and the guess is the first four distinct matches. -/
theorem C9_guess_author_witness :
    ((OcrRefine.tokens ("Thomas Mann und Heinrich Mann und Golo Mann".data)).filter
        (fun t => ["mann".data, "thomas".data, "heinrich".data, "golo".data,
          "kafka".data].contains t) ≠ []) ∧
    OcrRefine.guess_author ("Thomas Mann und Heinrich Mann und Golo Mann".data)
      ["mann".data, "thomas".data, "heinrich".data, "golo".data, "kafka".data] =
      ("thomas mann heinrich golo".data, 1) := by
  refine ⟨by decide, ?_⟩
  rw [(C9_guess_author ("Thomas Mann und Heinrich Mann und Golo Mann".data)
    ["mann".data, "thomas".data, "heinrich".data, "golo".data,
      "kafka".data]).2 (by decide)]
  have h1 : ((OcrRefine.tokens
      ("Thomas Mann und Heinrich Mann und Golo Mann".data)).filter
        (fun t => ["mann".data, "thomas".data, "heinrich".data, "golo".data,
          "kafka".data].contains t)).length = 6 := by decide
  have h2 : max 3 (Enhance.dedupF (OcrRefine.tokens
      ("Thomas Mann und Heinrich Mann und Golo Mann".data)) []).length = 5 := by
    decide
  rw [h1, h2]
  have h3 : List.intercalate [' ']
      ((Enhance.dedupF ((OcrRefine.tokens
          ("Thomas Mann und Heinrich Mann und Golo Mann".data)).filter
            (fun t => ["mann".data, "thomas".data, "heinrich".data,
              "golo".data, "kafka".data].contains t)) []).take 4) =
      "thomas mann heinrich golo".data := by decide
  rw [h3]
  norm_num

/-! ### C4: best OCR combination -/

lemma foldl_flatMap {α β γ : Type} (f : α → List β) (g : γ → β → γ) :
    ∀ (l : List α) (init : γ),
      (l.flatMap f).foldl g init =
        l.foldl (fun acc x => (f x).foldl g acc) init := by
  intro l
  induction l with
  | nil => intro init; rfl
  | cons x xs ih =>
    intro init
    rw [List.flatMap_cons, List.foldl_append, List.foldl_cons, ih]

lemma best_ocr_eq_combo {Img : Type} (ops : OcrRefine.PILOps Img)
    (ex : Img → String → Option (List Char)) (img : Img) :
    OcrRefine.best_ocr_text ops ex img =
      (OcrRefine.comboList ops img).foldl
        (fun acc c =>
          match ex c.2.1 c.2.2.2 with
          | none => acc
          | some txt =>
            let t := OcrRefine.clean txt
            let sc := OcrRefine.text_quality_score t
            if acc.2.1 < sc then (t, sc, c.1, c.2.2.1) else acc)
        ([], 0, 0, 6) := by
  rw [OcrRefine.best_ocr_text, OcrRefine.comboList]
  simp only [foldl_flatMap, List.foldl_map]

lemma comboFoldIte {Img : Type} (ex : Img → String → Option (List Char)) :
    ∀ (l : List (Nat × Img × Nat × String)) (acc : List Char × ℚ × Nat × Nat),
      0 ≤ acc.2.1 →
      l.foldl
        (fun acc c =>
          match ex c.2.1 c.2.2.2 with
          | none => acc
          | some txt =>
            let t := OcrRefine.clean txt
            let sc := OcrRefine.text_quality_score t
            if acc.2.1 < sc then (t, sc, c.1, c.2.2.1) else acc) acc =
      l.foldl
        (fun acc c =>
          if acc.2.1 < OcrRefine.comboScore ex c
          then (OcrRefine.comboText ex c, OcrRefine.comboScore ex c,
            c.1, c.2.2.1)
          else acc) acc := by
  intro l
  induction l with
  | nil => intro acc _; rfl
  | cons c rest ih =>
    intro acc hacc
    rcases hex : ex c.2.1 c.2.2.2 with _ | txt
    · have hs : OcrRefine.comboScore ex c = 0 := by
        simp only [OcrRefine.comboScore, hex]
      simp only [List.foldl_cons, hex, hs]
      rw [if_neg (not_lt.mpr hacc)]
      exact ih acc hacc
    · have hs : OcrRefine.comboScore ex c =
          OcrRefine.text_quality_score (OcrRefine.clean txt) := by
        simp only [OcrRefine.comboScore, hex]
      have ht : OcrRefine.comboText ex c = OcrRefine.clean txt := by
        simp only [OcrRefine.comboText, hex]
      simp only [List.foldl_cons, hex, hs, ht]
      by_cases hlt : acc.2.1 <
          OcrRefine.text_quality_score (OcrRefine.clean txt)
      · rw [if_pos hlt]
        exact ih _ (le_of_lt (lt_of_le_of_lt hacc hlt))
      · rw [if_neg hlt]
        exact ih acc hacc

lemma selFold4_snd {α β γ : Type} (f : α → ℚ) (g₁ : α → β) (g₂ : α → γ) :
    ∀ (l : List α) (acc : β × ℚ × γ),
      (l.foldl (fun acc x => if acc.2.1 < f x then (g₁ x, f x, g₂ x) else acc)
          acc).2.1 =
        (l.map f).foldl max acc.2.1 := by
  intro l
  induction l with
  | nil => intro acc; rfl
  | cons x xs ih =>
    intro acc
    rw [List.foldl_cons, List.map_cons, List.foldl_cons, ih]
    rcases lt_or_le acc.2.1 (f x) with h | h
    · rw [if_pos h, max_eq_right h.le]
    · rw [if_neg (not_lt.mpr h), max_eq_left h]

lemma selFold4_cases {α β γ : Type} (f : α → ℚ) (g₁ : α → β) (g₂ : α → γ) :
    ∀ (l : List α) (acc : β × ℚ × γ),
      (l.foldl (fun acc x => if acc.2.1 < f x then (g₁ x, f x, g₂ x) else acc)
          acc = acc ∧
        ∀ x ∈ l, f x ≤ acc.2.1) ∨
      (∃ pre x post, l = pre ++ x :: post ∧
        l.foldl (fun acc x => if acc.2.1 < f x then (g₁ x, f x, g₂ x) else acc)
            acc
          = (g₁ x, f x, g₂ x) ∧
        acc.2.1 < f x ∧ (∀ y ∈ pre, f y < f x) ∧ (∀ y ∈ post, f y ≤ f x)) := by
  intro l
  induction l with
  | nil => intro acc; exact Or.inl ⟨rfl, by simp⟩
  | cons x xs ih =>
    intro acc
    rcases lt_or_le acc.2.1 (f x) with hx | hx
    · rcases ih (g₁ x, f x, g₂ x) with ⟨heq, hle⟩ |
        ⟨pre, z, post, hdec, heq, hgt, hpre, hpost⟩
      · refine Or.inr ⟨[], x, xs, by simp, ?_, hx, by simp, ?_⟩
        · rw [List.foldl_cons, if_pos hx]
          exact heq
        · intro y hy
          exact hle y hy
      · refine Or.inr ⟨x :: pre, z, post, by simp [hdec], ?_, ?_, ?_, hpost⟩
        · rw [List.foldl_cons, if_pos hx]
          exact heq
        · exact lt_trans hx hgt
        · intro y hy
          rcases List.mem_cons.mp hy with rfl | hy
          · exact hgt
          · exact hpre y hy
    · rcases ih acc with ⟨heq, hle⟩ |
        ⟨pre, z, post, hdec, heq, hgt, hpre, hpost⟩
      · refine Or.inl ⟨?_, ?_⟩
        · rw [List.foldl_cons, if_neg (not_lt.mpr hx)]
          exact heq
        · intro y hy
          rcases List.mem_cons.mp hy with rfl | hy
          · exact hx
          · exact hle y hy
      · refine Or.inr ⟨x :: pre, z, post, by simp [hdec], ?_, hgt, ?_, hpost⟩
        · rw [List.foldl_cons, if_neg (not_lt.mpr hx)]
          exact heq
        · intro y hy
          rcases List.mem_cons.mp hy with rfl | hy
          · exact lt_of_le_of_lt hx hgt
          · exact hpre y hy

lemma comboText_nil_score {Img : Type}
    (ex : Img → String → Option (List Char)) (c : Nat × Img × Nat × String)
    (h : OcrRefine.comboText ex c = []) :
    OcrRefine.comboScore ex c = 0 := by
  rcases hex : ex c.2.1 c.2.2.2 with _ | txt
  · simp only [OcrRefine.comboScore, hex]
  · simp only [OcrRefine.comboText, hex] at h
    simp only [OcrRefine.comboScore, hex, h]
    simp [OcrRefine.text_quality_score]

/-- C4: the optimizer's score is the maximum combination quality over the
flattened search space (rotation outer, preprocessing variant, PSM, then
the two Tesseract configurations); when every combination yields empty
text the result is empty text with score 0 (and the initial rotation 0 /
PSM 6); and when some combination has positive quality the result is
exactly the text, score, rotation and PSM of the first combination that
attains the maximum, in enumeration order — a raising extraction counts
as quality 0 and never aborts the search. -/
theorem C4_best_ocr_text {Img : Type} (ops : OcrRefine.PILOps Img)
    (ex : Img → String → Option (List Char)) (img : Img) :
    (OcrRefine.best_ocr_text ops ex img).2.1 =
      ((OcrRefine.comboList ops img).map (OcrRefine.comboScore ex)).foldl
        max 0 ∧
    ((∀ c ∈ OcrRefine.comboList ops img, OcrRefine.comboText ex c = []) →
      OcrRefine.best_ocr_text ops ex img = ([], 0, 0, 6)) ∧
    ((∃ c ∈ OcrRefine.comboList ops img, 0 < OcrRefine.comboScore ex c) →
      ∃ pre c post, OcrRefine.comboList ops img = pre ++ c :: post ∧
        OcrRefine.best_ocr_text ops ex img =
          (OcrRefine.comboText ex c, OcrRefine.comboScore ex c,
            c.1, c.2.2.1) ∧
        (∀ y ∈ pre, OcrRefine.comboScore ex y <
          OcrRefine.comboScore ex c) ∧
        (∀ y ∈ post, OcrRefine.comboScore ex y ≤
          OcrRefine.comboScore ex c)) := by
  have hb : OcrRefine.best_ocr_text ops ex img =
      (OcrRefine.comboList ops img).foldl
        (fun acc c =>
          if acc.2.1 < OcrRefine.comboScore ex c
          then (OcrRefine.comboText ex c, OcrRefine.comboScore ex c,
            c.1, c.2.2.1)
          else acc) ([], 0, 0, 6) :=
    (best_ocr_eq_combo ops ex img).trans
      (comboFoldIte ex (OcrRefine.comboList ops img) ([], 0, 0, 6)
        (le_refl 0))
  refine ⟨?_, ?_, ?_⟩
  · rw [hb]
    exact selFold4_snd (OcrRefine.comboScore ex) (OcrRefine.comboText ex)
      (fun c => (c.1, c.2.2.1)) (OcrRefine.comboList ops img) ([], 0, 0, 6)
  · intro hall
    rcases selFold4_cases (OcrRefine.comboScore ex) (OcrRefine.comboText ex)
        (fun c => (c.1, c.2.2.1)) (OcrRefine.comboList ops img)
        ([], 0, 0, 6) with
      ⟨heq, -⟩ | ⟨pre, c, post, hdec, heq, hgt, -, -⟩
    · rw [hb]
      exact heq
    · exfalso
      have hc : c ∈ OcrRefine.comboList ops img := by
        rw [hdec]
        exact List.mem_append_right _ (List.mem_cons_self _ _)
      have h0 : OcrRefine.comboScore ex c = 0 :=
        comboText_nil_score ex c (hall c hc)
      rw [h0] at hgt
      have hgt' : (0 : ℚ) < 0 := hgt
      exact lt_irrefl 0 hgt'
  · intro hex2
    rcases selFold4_cases (OcrRefine.comboScore ex) (OcrRefine.comboText ex)
        (fun c => (c.1, c.2.2.1)) (OcrRefine.comboList ops img)
        ([], 0, 0, 6) with
      ⟨heq, hle⟩ | ⟨pre, c, post, hdec, heq, hgt, hpre, hpost⟩
    · exfalso
      obtain ⟨c, hc, hc0⟩ := hex2
      have h0 : OcrRefine.comboScore ex c ≤ 0 := hle c hc
      exact absurd hc0 (not_lt.mpr h0)
    · refine ⟨pre, c, post, hdec, ?_, hpre, hpost⟩
      rw [hb]
      exact heq

/-- Witness for C4: with the trivial `Unit` image backend and an
extraction that answers "Hello" for every combination, some combination
has positive quality, so the optimizer returns the first maximum-quality
combination of the enumeration. -/
theorem C4_best_ocr_text_witness :
    (∃ c ∈ OcrRefine.comboList OcrRefine.unitOps (),
        0 < OcrRefine.comboScore OcrRefine.helloEx c) ∧
    (∃ pre c post,
        OcrRefine.comboList OcrRefine.unitOps () = pre ++ c :: post ∧
        OcrRefine.best_ocr_text OcrRefine.unitOps OcrRefine.helloEx () =
          (OcrRefine.comboText OcrRefine.helloEx c,
            OcrRefine.comboScore OcrRefine.helloEx c, c.1, c.2.2.1) ∧
        (∀ y ∈ pre, OcrRefine.comboScore OcrRefine.helloEx y <
          OcrRefine.comboScore OcrRefine.helloEx c) ∧
        (∀ y ∈ post, OcrRefine.comboScore OcrRefine.helloEx y ≤
          OcrRefine.comboScore OcrRefine.helloEx c)) := by
  have hex2 : ∃ c ∈ OcrRefine.comboList OcrRefine.unitOps (),
      0 < OcrRefine.comboScore OcrRefine.helloEx c := by decide
  exact ⟨hex2,
    (C4_best_ocr_text OcrRefine.unitOps OcrRefine.helloEx ()).2.2 hex2⟩

/-! ### C3: vertical segmentation fallback -/

lemma segLoop_nil (x0 minw : ℕ) :
    ∀ (l : List Bool) (i rs : ℕ) (in_run : Bool),
      (in_run = true → rs ≤ i) →
      Scan.hasRun minw l (if in_run then some (i - rs) else none) = false →
      Scan.segLoop x0 minw l i in_run rs [] = [] := by
  intro l
  induction l with
  | nil =>
    intro i rs in_run hinv hrun
    cases in_run with
    | false => rfl
    | true =>
      have hw' : decide (minw ≤ i - rs) = false := hrun
      have hw : ¬ (minw ≤ i - rs) := of_decide_eq_false hw'
      show (if minw ≤ (x0 + i) - (x0 + rs)
        then ([] : List (ℕ × ℕ)) ++ [(x0 + rs, x0 + i)] else []) = []
      rw [show (x0 + i) - (x0 + rs) = i - rs by omega, if_neg hw]
  | cons g rest ih =>
    intro i rs in_run hinv hrun
    cases g with
    | true =>
      cases in_run with
      | true =>
        have hinv' := hinv rfl
        have h2 : (decide (minw ≤ i - rs) ||
            Scan.hasRun minw rest none) = false := hrun
        rw [Bool.or_eq_false_iff] at h2
        have hw : ¬ (minw ≤ i - rs) := of_decide_eq_false h2.1
        show Scan.segLoop x0 minw rest (i + 1) false rs
            (if minw ≤ (x0 + i) - (x0 + rs)
              then ([] : List (ℕ × ℕ)) ++ [(x0 + rs, x0 + i)] else []) = []
        rw [show (x0 + i) - (x0 + rs) = i - rs by omega, if_neg hw]
        exact ih (i + 1) rs false (fun h => by cases h) h2.2
      | false =>
        show Scan.segLoop x0 minw rest (i + 1) false rs [] = []
        exact ih (i + 1) rs false (fun h => by cases h) hrun
    | false =>
      cases in_run with
      | true =>
        have hinv' := hinv rfl
        show Scan.segLoop x0 minw rest (i + 1) true rs [] = []
        refine ih (i + 1) rs true (fun _ => by omega) ?_
        show Scan.hasRun minw rest (some ((i + 1) - rs)) = false
        rw [show (i + 1) - rs = (i - rs) + 1 by omega]
        exact hrun
      | false =>
        show Scan.segLoop x0 minw rest (i + 1) true i [] = []
        refine ih (i + 1) i true (fun _ => by omega) ?_
        show Scan.hasRun minw rest (some ((i + 1) - i)) = false
        rw [show (i + 1) - i = 1 by omega]
        exact hrun

/-- C3 counterexample: a pure-white 10-pixel-wide, 1-pixel-high image
with margin 2 (minimum width 80, threshold 180): the usable columns are
[2, 8), no run qualifies, and the fallback segment is (0, 10) — the full
image width, margins included — not (2, 8), the usable width the claim
announces. -/
theorem C3_counterexample :
    Scan.vertical_segments [List.replicate 10 255] 80 180 2 = [(0, 10)] ∧
    Scan.usableBounds 10 2 = (2, 8) ∧
    ((0, 10) : ℕ × ℕ) ≠ (2, 8) :=
  ⟨by decide, by decide, by decide⟩

/-- C3 amended: for every nonempty rectangular grayscale image the
segmenter returns at least one segment, and whenever no maximal run of
non-gap columns reaches the minimum width it returns exactly one segment
(0, W) spanning the full image width — margins included, not just the
usable width. -/
theorem C3_vertical_segments (arr : List (List ℕ))
    (minw threshold margin : ℕ)
    (hW : 1 ≤ (arr.headD []).length)
    (hrect : ∀ row ∈ arr, row.length = (arr.headD []).length) :
    Scan.vertical_segments arr minw threshold margin ≠ [] ∧
    (Scan.hasRun minw (Scan.gapsOf arr threshold margin) none = false →
      Scan.vertical_segments arr minw threshold margin =
        [(0, (arr.headD []).length)]) := by
  constructor
  · rw [Scan.vertical_segments]
    by_cases h : Scan.segLoop
        (Scan.usableBounds (arr.headD []).length margin).1 minw
        (Scan.gapsOf arr threshold margin) 0 false 0 [] = []
    · rw [if_pos h]
      simp
    · rw [if_neg h]
      exact h
  · intro hrun
    have hnil := segLoop_nil
      (Scan.usableBounds (arr.headD []).length margin).1 minw
      (Scan.gapsOf arr threshold margin) 0 0 false (fun h => by cases h) hrun
    rw [Scan.vertical_segments, if_pos hnil]

/-- Witness for C3: the pure-white 10×1 image with margin 2 satisfies the
well-formedness hypotheses and has no qualifying run, so the segmenter
returns the single full-width segment (0, 10). -/
theorem C3_vertical_segments_witness :
    (1 ≤ (([List.replicate 10 255] : List (List ℕ)).headD []).length ∧
      (∀ row ∈ ([List.replicate 10 255] : List (List ℕ)),
        row.length = (([List.replicate 10 255] : List (List ℕ)).headD
          []).length) ∧
      Scan.hasRun 80 (Scan.gapsOf [List.replicate 10 255] 180 2) none
        = false) ∧
    Scan.vertical_segments [List.replicate 10 255] 80 180 2 = [(0, 10)] := by
  refine ⟨⟨by decide, by decide, by decide⟩, ?_⟩
  have h := (C3_vertical_segments [List.replicate 10 255] 80 180 2
    (by decide) (by decide)).2 (by decide)
  rw [h]
  decide

end Theorems
